import Mathlib

/-!
Shallow embedding of the Acala `dex` module (src/modules/dex/src/lib.rs):
a constant-product AMM pairing every non-base currency against one base
currency, with proportional liquidity shares and a single global exchange fee.

Balances and shares are `u128` in the reference configuration (mock.rs), so we
embed them as `ℕ` together with the explicit bound `u128Max`; every checked
operation of the source is translated to an `Option`-returning function whose
`none` case matches the source's overflow/underflow case.
-/

namespace Dex

/-- Fixed-point denominator of the arithmetic kernel: `10^18`. -/
def acc : ℕ := 10 ^ 18

/-- Largest value of the 128-bit balance/share type: `2^128 - 1`. -/
def u128Max : ℕ := 2 ^ 128 - 1

/-- Modelled from the spec: the fixed-point arithmetic kernel (§4.1) used by the
dex module is the external `orml_utilities::FixedU128`, whose code is not part
of this repository.  A rational `n / 10^18` represented by its 128-bit
numerator. -/
structure FixedU128 where
  val : ℕ
deriving Repr, DecidableEq

/-- Modelled from the spec: `from_natural(k) → k·10^18`, saturating at the
128-bit bound. -/
def FixedU128.from_natural (k : ℕ) : FixedU128 :=
  ⟨min (k * acc) u128Max⟩

/-- Modelled from the spec: `from_rational(num, denom) → (num·10^18)/denom`
with truncation, saturating at the 128-bit bound.  The spec declares a zero
denominator a failure and fixes no result for it; this embedding assigns that
case the saturated maximum, following the saturating discipline of §4.1. -/
def FixedU128.from_rational (n d : ℕ) : FixedU128 :=
  if d = 0 then ⟨u128Max⟩ else ⟨min (n * acc / d) u128Max⟩

/-- Modelled from the spec: checked fixed-point subtraction, `none` on
underflow. -/
def FixedU128.checked_sub (a b : FixedU128) : Option FixedU128 :=
  if b.val ≤ a.val then some ⟨a.val - b.val⟩ else none

/-- Modelled from the spec: checked fixed-point division, `none` on division by
zero or overflow. -/
def FixedU128.checked_div (a b : FixedU128) : Option FixedU128 :=
  if b.val = 0 then none
  else
    let r := a.val * acc / b.val
    if r ≤ u128Max then some ⟨r⟩ else none

/-- Modelled from the spec: `mul_int(balance) → floor((n·balance)/10^18)`
narrowed back to the balance type, `none` when the result does not fit. -/
def FixedU128.checked_mul_int (f : FixedU128) (x : ℕ) : Option ℕ :=
  let r := f.val * x / acc
  if r ≤ u128Max then some r else none

/-- Checked addition on the `u128` balance type, `none` on overflow. -/
def checked_add (a b : ℕ) : Option ℕ :=
  if a + b ≤ u128Max then some (a + b) else none

/-- Checked subtraction on the `u128` balance type, `none` on underflow. -/
def checked_sub (a b : ℕ) : Option ℕ :=
  if b ≤ a then some (a - b) else none

/-- Runtime configuration: the designated base currency and the global
exchange fee (`GetBaseCurrencyId` / `GetExchangeFee`). -/
structure Config where
  baseCurrencyId : ℕ
  exchangeFee : FixedU128
deriving Repr, DecidableEq

/-- Error enum of the dex module. -/
inductive Error where
  | BaseCurrencyIdNotAllowed
  | TokenNotEnough
  | ShareNotEnough
  | InvalidBalance
  | CanNotSwapItself
  | InacceptablePrice
  | InvalidLiquidityIncrement
deriving Repr, DecidableEq

/-- Events deposited by the dex module. -/
inductive Event where
  | AddLiquidity (who currencyId otherAmount baseAmount share : ℕ)
  | WithdrawLiquidity (who currencyId amount1 amount2 share : ℕ)
  | Swap (who supplyCurrencyId supplyAmount targetCurrencyId targetAmount : ℕ)
deriving Repr, DecidableEq

/-- `Self::account_id()`: the module's pool account, derived from the module id
`aca/dexm`; an opaque account distinct from ordinary users in the mock. -/
def moduleAccount : ℕ := 10 ^ 9

/-- Full module state: the external ledger balances
(currency → account → balance), the liquidity pools
(other currency → (other_reserve, base_reserve)), the two share maps and the
deposited events. -/
structure DexState where
  balances : ℕ → ℕ → ℕ
  pool : ℕ → ℕ × ℕ
  totalShares : ℕ → ℕ
  shares : ℕ → ℕ → ℕ
  events : List Event

/-- Modelled from the spec: the external ledger's `ensure_can_withdraw`
predicate (§6) — the account's balance covers the amount. -/
def DexState.ensure_can_withdraw (st : DexState) (c who amt : ℕ) : Prop :=
  amt ≤ st.balances c who

instance (st : DexState) (c who amt : ℕ) :
    Decidable (st.ensure_can_withdraw c who amt) := by
  unfold DexState.ensure_can_withdraw
  infer_instance

/-- Modelled from the spec: the external ledger's `transfer` (§6) — moves
`amt` of currency `c` from `src` to `dst`. -/
def DexState.transfer (st : DexState) (c src dst amt : ℕ) : DexState :=
  { st with
    balances := fun c2 a =>
      if c2 = c ∧ a = src then st.balances c2 a - amt
      else if c2 = c ∧ a = dst then st.balances c2 a + amt
      else st.balances c2 a }

/-- Appends a deposited event (`Self::deposit_event`). -/
def DexState.emit (st : DexState) (e : Event) : DexState :=
  { st with events := st.events ++ [e] }

/-- `calculate_swap_target_amount` (src/modules/dex/src/lib.rs:225-258):
`new_target_pool = supply_pool · target_pool / (supply_amount + supply_pool)`;
returns 0 when that is 0, otherwise the gross output
`target_pool - new_target_pool` minus the fee taken on it. -/
def calculate_swap_target_amount (cfg : Config)
    (supply_pool target_pool supply_amount : ℕ) : ℕ :=
  let new_target_pool :=
    ((checked_add supply_pool supply_amount).bind fun n =>
      (FixedU128.from_rational supply_pool n).checked_mul_int target_pool).getD 0
  if new_target_pool ≠ 0 then
    ((checked_sub target_pool new_target_pool).bind fun n =>
      checked_sub n
        ((cfg.exchangeFee.checked_mul_int n).getD u128Max)).getD 0
  else 0

/-- `calculate_swap_supply_amount` (src/modules/dex/src/lib.rs:260-281):
`new_target_pool = target_pool - target_amount / (1 - fee)`;
`supply_amount = target_pool · supply_pool / new_target_pool - supply_pool`. -/
def calculate_swap_supply_amount (cfg : Config)
    (supply_pool target_pool target_amount : ℕ) : ℕ :=
  ((((((FixedU128.from_natural 1).checked_sub cfg.exchangeFee).bind fun n =>
      (FixedU128.from_natural 1).checked_div n).bind fun n =>
      n.checked_mul_int target_amount).bind fun n =>
      checked_sub target_pool n).bind fun n =>
      ((FixedU128.from_rational supply_pool n).checked_mul_int
        target_pool)).bind (fun n => checked_sub n supply_pool) |>.getD 0

/-- The helper computing `withdraw_other_currency_amount` /
`withdraw_base_currency_amount` inside `withdraw_liquidity`
(src/modules/dex/src/lib.rs:188-193): the proportion
`share_amount / total_shares` applied to one pool reserve, saturating. -/
def withdraw_amount (share_amount total_shares reserve : ℕ) : ℕ :=
  ((FixedU128.from_rational share_amount total_shares).checked_mul_int
    reserve).getD u128Max

/-- The increment triple `(other, base, share)` computed by `add_liquidity`
(src/modules/dex/src/lib.rs:100-144), for a pool that already has shares:
compares the proposed deposit ratio against the pool ratio and fills the
binding side exactly. -/
def add_liquidity_increments
    (total_shares other_currency_pool base_currency_pool
      max_other_currency_amount max_base_currency_amount : ℕ) : ℕ × ℕ × ℕ :=
  if total_shares = 0 then
    (max_other_currency_amount, max_base_currency_amount,
      max max_other_currency_amount max_base_currency_amount)
  else
    let other_base_price :=
      FixedU128.from_rational base_currency_pool other_currency_pool
    let input_other_base_price :=
      FixedU128.from_rational max_base_currency_amount max_other_currency_amount
    if input_other_base_price.val ≤ other_base_price.val then
      let base_other_price :=
        FixedU128.from_rational other_currency_pool base_currency_pool
      let other_currency_amount :=
        (base_other_price.checked_mul_int max_base_currency_amount).getD u128Max
      let share :=
        ((FixedU128.from_rational other_currency_amount
          other_currency_pool).checked_mul_int total_shares).getD 0
      (other_currency_amount, max_base_currency_amount, share)
    else
      let base_currency_amount :=
        (other_base_price.checked_mul_int max_other_currency_amount).getD u128Max
      let share :=
        ((FixedU128.from_rational base_currency_amount
          base_currency_pool).checked_mul_int total_shares).getD 0
      (max_other_currency_amount, base_currency_amount, share)

/-- `add_liquidity` (src/modules/dex/src/lib.rs:87-173).  The state is threaded
through; an early `ensure!` failure returns the untouched state with the
error. -/
def add_liquidity (cfg : Config)
    (who other_currency_id max_other_currency_amount
      max_base_currency_amount : ℕ) (st : DexState) :
    DexState × Option Error :=
  if other_currency_id = cfg.baseCurrencyId then
    (st, some Error.BaseCurrencyIdNotAllowed)
  else if ¬ (max_other_currency_amount ≠ 0 ∧ max_base_currency_amount ≠ 0) then
    (st, some Error.InvalidBalance)
  else
    let total_shares := st.totalShares other_currency_id
    let p := st.pool other_currency_id
    let incs := add_liquidity_increments total_shares p.1 p.2
      max_other_currency_amount max_base_currency_amount
    let other_currency_increment := incs.1
    let base_currency_increment := incs.2.1
    let share_increment := incs.2.2
    if ¬ (0 < share_increment ∧ 0 < other_currency_increment ∧
        0 < base_currency_increment) then
      (st, some Error.InvalidLiquidityIncrement)
    else if ¬ (st.ensure_can_withdraw cfg.baseCurrencyId who
          base_currency_increment ∧
        st.ensure_can_withdraw other_currency_id who
          other_currency_increment) then
      (st, some Error.TokenNotEnough)
    else
      let st1 := st.transfer other_currency_id who moduleAccount
        other_currency_increment
      let st2 := st1.transfer cfg.baseCurrencyId who moduleAccount
        base_currency_increment
      let st3 := { st2 with
        totalShares := fun c =>
          if c = other_currency_id then st2.totalShares c + share_increment
          else st2.totalShares c,
        shares := fun c a =>
          if c = other_currency_id ∧ a = who then st2.shares c a + share_increment
          else st2.shares c a,
        pool := fun c =>
          if c = other_currency_id then
            ((st2.pool c).1 + other_currency_increment,
              (st2.pool c).2 + base_currency_increment)
          else st2.pool c }
      (st3.emit (Event.AddLiquidity who other_currency_id
        other_currency_increment base_currency_increment share_increment),
        none)

/-- `withdraw_liquidity` (src/modules/dex/src/lib.rs:175-216).  Note the event:
the source deposits `withdraw_base_currency_amount` in both balance fields. -/
def withdraw_liquidity (cfg : Config) (who currency_id share_amount : ℕ)
    (st : DexState) : DexState × Option Error :=
  if currency_id = cfg.baseCurrencyId then
    (st, some Error.BaseCurrencyIdNotAllowed)
  else if ¬ (share_amount ≤ st.shares currency_id who ∧ 0 < share_amount) then
    (st, some Error.ShareNotEnough)
  else
    let p := st.pool currency_id
    let withdraw_other_currency_amount :=
      withdraw_amount share_amount (st.totalShares currency_id) p.1
    let withdraw_base_currency_amount :=
      withdraw_amount share_amount (st.totalShares currency_id) p.2
    let st1 :=
      if 0 < withdraw_other_currency_amount then
        st.transfer currency_id moduleAccount who withdraw_other_currency_amount
      else st
    let st2 :=
      if 0 < withdraw_base_currency_amount then
        st1.transfer cfg.baseCurrencyId moduleAccount who
          withdraw_base_currency_amount
      else st1
    let st3 := { st2 with
      totalShares := fun c =>
        if c = currency_id then st2.totalShares c - share_amount
        else st2.totalShares c,
      shares := fun c a =>
        if c = currency_id ∧ a = who then st2.shares c a - share_amount
        else st2.shares c a,
      pool := fun c =>
        if c = currency_id then
          ((st2.pool c).1 - withdraw_other_currency_amount,
            (st2.pool c).2 - withdraw_base_currency_amount)
        else st2.pool c }
    (st3.emit (Event.WithdrawLiquidity who currency_id
      withdraw_base_currency_amount withdraw_base_currency_amount
      share_amount), none)

/-- `swap_other_to_base` (src/modules/dex/src/lib.rs:284-320). -/
def swap_other_to_base (cfg : Config)
    (who other_currency_id other_currency_amount
      min_base_currency_amount : ℕ) (st : DexState) :
    DexState × Option Error :=
  if ¬ (0 < other_currency_amount ∧
      st.ensure_can_withdraw other_currency_id who other_currency_amount) then
    (st, some Error.TokenNotEnough)
  else
    let p := st.pool other_currency_id
    let base_currency_amount :=
      calculate_swap_target_amount cfg p.1 p.2 other_currency_amount
    if ¬ (min_base_currency_amount ≤ base_currency_amount) then
      (st, some Error.InacceptablePrice)
    else
      let st1 := st.transfer other_currency_id who moduleAccount
        other_currency_amount
      let st2 := st1.transfer cfg.baseCurrencyId moduleAccount who
        base_currency_amount
      let st3 := { st2 with
        pool := fun c =>
          if c = other_currency_id then
            ((st2.pool c).1 + other_currency_amount,
              (st2.pool c).2 - base_currency_amount)
          else st2.pool c }
      (st3.emit (Event.Swap who other_currency_id other_currency_amount
        cfg.baseCurrencyId base_currency_amount), none)

/-- `swap_base_to_other` (src/modules/dex/src/lib.rs:323-359). -/
def swap_base_to_other (cfg : Config)
    (who other_currency_id base_currency_amount
      min_other_currency_amount : ℕ) (st : DexState) :
    DexState × Option Error :=
  if ¬ (0 < base_currency_amount ∧
      st.ensure_can_withdraw cfg.baseCurrencyId who base_currency_amount) then
    (st, some Error.TokenNotEnough)
  else
    let p := st.pool other_currency_id
    let other_currency_amount :=
      calculate_swap_target_amount cfg p.2 p.1 base_currency_amount
    if ¬ (min_other_currency_amount ≤ other_currency_amount) then
      (st, some Error.InacceptablePrice)
    else
      let st1 := st.transfer cfg.baseCurrencyId who moduleAccount
        base_currency_amount
      let st2 := st1.transfer other_currency_id moduleAccount who
        other_currency_amount
      let st3 := { st2 with
        pool := fun c =>
          if c = other_currency_id then
            ((st2.pool c).1 - other_currency_amount,
              (st2.pool c).2 + base_currency_amount)
          else st2.pool c }
      (st3.emit (Event.Swap who cfg.baseCurrencyId base_currency_amount
        other_currency_id other_currency_amount), none)

/-- `swap_other_to_other` (src/modules/dex/src/lib.rs:362-428): two hops
through the base currency, both priced against pre-operation snapshots. -/
def swap_other_to_other (cfg : Config)
    (who supply_other_currency_id supply_other_currency_amount
      target_other_currency_id min_target_other_currency_amount : ℕ)
    (st : DexState) : DexState × Option Error :=
  if ¬ (0 < supply_other_currency_amount ∧
      st.ensure_can_withdraw supply_other_currency_id who
        supply_other_currency_amount) then
    (st, some Error.TokenNotEnough)
  else
    let ps := st.pool supply_other_currency_id
    let intermediate_base_currency_amount :=
      calculate_swap_target_amount cfg ps.1 ps.2 supply_other_currency_amount
    let pt := st.pool target_other_currency_id
    let target_other_currency_amount :=
      calculate_swap_target_amount cfg pt.2 pt.1
        intermediate_base_currency_amount
    if ¬ (min_target_other_currency_amount ≤ target_other_currency_amount) then
      (st, some Error.InacceptablePrice)
    else
      let st1 := st.transfer supply_other_currency_id who moduleAccount
        supply_other_currency_amount
      let st2 := st1.transfer target_other_currency_id moduleAccount who
        target_other_currency_amount
      let st3 := { st2 with
        pool := fun c =>
          if c = supply_other_currency_id then
            ((st2.pool c).1 + supply_other_currency_amount,
              (st2.pool c).2 - intermediate_base_currency_amount)
          else st2.pool c }
      let st4 := { st3 with
        pool := fun c =>
          if c = target_other_currency_id then
            ((st3.pool c).1 - target_other_currency_amount,
              (st3.pool c).2 + intermediate_base_currency_amount)
          else st3.pool c }
      (st4.emit (Event.Swap who supply_other_currency_id
        supply_other_currency_amount target_other_currency_id
        target_other_currency_amount), none)

/-- `swap_currency` (src/modules/dex/src/lib.rs:70-85): rejects self-swap,
then dispatches on whether either side is the base currency. -/
def swap_currency (cfg : Config)
    (who supply_currency_id supply_amount target_currency_id
      target_min_amount : ℕ) (st : DexState) : DexState × Option Error :=
  if target_currency_id = supply_currency_id then
    (st, some Error.CanNotSwapItself)
  else if target_currency_id = cfg.baseCurrencyId then
    swap_other_to_base cfg who supply_currency_id supply_amount
      target_min_amount st
  else if supply_currency_id = cfg.baseCurrencyId then
    swap_base_to_other cfg who target_currency_id supply_amount
      target_min_amount st
  else
    swap_other_to_other cfg who supply_currency_id supply_amount
      target_currency_id target_min_amount st

/-- The target amount a `swap_currency` call will be priced at, read off the
same dispatch and pre-state pools as the handler itself. -/
def priced_target_amount (cfg : Config)
    (supply_currency_id supply_amount target_currency_id : ℕ)
    (st : DexState) : ℕ :=
  if target_currency_id = cfg.baseCurrencyId then
    calculate_swap_target_amount cfg (st.pool supply_currency_id).1
      (st.pool supply_currency_id).2 supply_amount
  else if supply_currency_id = cfg.baseCurrencyId then
    calculate_swap_target_amount cfg (st.pool target_currency_id).2
      (st.pool target_currency_id).1 supply_amount
  else
    calculate_swap_target_amount cfg (st.pool target_currency_id).2
      (st.pool target_currency_id).1
      (calculate_swap_target_amount cfg (st.pool supply_currency_id).1
        (st.pool supply_currency_id).2 supply_amount)

/-- `get_supply_amount` (src/modules/dex/src/lib.rs:434-462). -/
def get_supply_amount (cfg : Config)
    (supply_currency_id target_currency_id target_currency_amount : ℕ)
    (st : DexState) : ℕ :=
  if supply_currency_id = target_currency_id then 0
  else if target_currency_id = cfg.baseCurrencyId then
    calculate_swap_supply_amount cfg (st.pool supply_currency_id).1
      (st.pool supply_currency_id).2 target_currency_amount
  else if supply_currency_id = cfg.baseCurrencyId then
    calculate_swap_supply_amount cfg (st.pool target_currency_id).2
      (st.pool target_currency_id).1 target_currency_amount
  else
    calculate_swap_supply_amount cfg (st.pool supply_currency_id).1
      (st.pool supply_currency_id).2
      (calculate_swap_supply_amount cfg (st.pool target_currency_id).2
        (st.pool target_currency_id).1 target_currency_amount)

/-! ## Basic facts about the state helpers -/

@[simp]
theorem transfer_pool (st : DexState) (c a b x : ℕ) :
    (st.transfer c a b x).pool = st.pool := rfl

@[simp]
theorem transfer_totalShares (st : DexState) (c a b x : ℕ) :
    (st.transfer c a b x).totalShares = st.totalShares := rfl

@[simp]
theorem transfer_shares (st : DexState) (c a b x : ℕ) :
    (st.transfer c a b x).shares = st.shares := rfl

@[simp]
theorem transfer_events (st : DexState) (c a b x : ℕ) :
    (st.transfer c a b x).events = st.events := rfl

@[simp]
theorem emit_pool (st : DexState) (e : Event) : (st.emit e).pool = st.pool := rfl

@[simp]
theorem emit_totalShares (st : DexState) (e : Event) :
    (st.emit e).totalShares = st.totalShares := rfl

@[simp]
theorem emit_shares (st : DexState) (e : Event) :
    (st.emit e).shares = st.shares := rfl

@[simp]
theorem emit_events (st : DexState) (e : Event) :
    (st.emit e).events = st.events ++ [e] := rfl

@[simp]
theorem ite_transfer_pool (P : Prop) [Decidable P] (st : DexState)
    (c a b x : ℕ) :
    (if P then st.transfer c a b x else st).pool = st.pool := by
  split <;> rfl

@[simp]
theorem ite_transfer_totalShares (P : Prop) [Decidable P] (st : DexState)
    (c a b x : ℕ) :
    (if P then st.transfer c a b x else st).totalShares = st.totalShares := by
  split <;> rfl

@[simp]
theorem ite_transfer_shares (P : Prop) [Decidable P] (st : DexState)
    (c a b x : ℕ) :
    (if P then st.transfer c a b x else st).shares = st.shares := by
  split <;> rfl

@[simp]
theorem ite_transfer_events (P : Prop) [Decidable P] (st : DexState)
    (c a b x : ℕ) :
    (if P then st.transfer c a b x else st).events = st.events := by
  split <;> rfl

/-! ## Extraction lemmas: what a committed operation did to the state -/

/-- A committed `swap_other_to_base`: its guards held and the final state is the
input state with the supply added to, and the priced base amount removed from,
the touched pool, plus the `Swap` event. -/
theorem swap_other_to_base_spec (cfg : Config) (who c amt m : ℕ)
    (st : DexState)
    (h : (swap_other_to_base cfg who c amt m st).2 = none) :
    (0 < amt ∧ st.ensure_can_withdraw c who amt) ∧
    m ≤ calculate_swap_target_amount cfg (st.pool c).1 (st.pool c).2 amt ∧
    (swap_other_to_base cfg who c amt m st).1.pool = (fun c2 =>
      if c2 = c then
        ((st.pool c).1 + amt,
          (st.pool c).2 -
            calculate_swap_target_amount cfg (st.pool c).1 (st.pool c).2 amt)
      else st.pool c2) ∧
    (swap_other_to_base cfg who c amt m st).1.totalShares = st.totalShares ∧
    (swap_other_to_base cfg who c amt m st).1.shares = st.shares ∧
    (swap_other_to_base cfg who c amt m st).1.events = st.events ++
      [Event.Swap who c amt cfg.baseCurrencyId
        (calculate_swap_target_amount cfg (st.pool c).1 (st.pool c).2 amt)] :=
  by
  by_cases h1 : 0 < amt ∧ st.ensure_can_withdraw c who amt
  · by_cases h2 : m ≤ calculate_swap_target_amount cfg (st.pool c).1 (st.pool c).2 amt
    · refine ⟨h1, h2, ?_, ?_, ?_, ?_⟩
      · simp only [swap_other_to_base, h1.1, h1.2, and_self, not_true_eq_false,
          if_false, h2, emit_pool, transfer_pool]
        funext c2
        by_cases hc : c2 = c <;> simp [hc]
      · simp [swap_other_to_base, h1.1, h1.2, h2]
      · simp [swap_other_to_base, h1.1, h1.2, h2]
      · simp [swap_other_to_base, h1.1, h1.2, h2]
    · exfalso
      simp [swap_other_to_base, h1.1, h1.2, h2] at h
  · exfalso
    simp only [swap_other_to_base, if_pos h1] at h
    exact Option.some_ne_none _ h

/-- A committed `swap_base_to_other`: its guards held and the final state is the
input state with the supply added to the base reserve and the priced other
amount removed from the other reserve of the touched pool. -/
theorem swap_base_to_other_spec (cfg : Config) (who c amt m : ℕ)
    (st : DexState)
    (h : (swap_base_to_other cfg who c amt m st).2 = none) :
    (0 < amt ∧ st.ensure_can_withdraw cfg.baseCurrencyId who amt) ∧
    m ≤ calculate_swap_target_amount cfg (st.pool c).2 (st.pool c).1 amt ∧
    (swap_base_to_other cfg who c amt m st).1.pool = (fun c2 =>
      if c2 = c then
        ((st.pool c).1 -
            calculate_swap_target_amount cfg (st.pool c).2 (st.pool c).1 amt,
          (st.pool c).2 + amt)
      else st.pool c2) ∧
    (swap_base_to_other cfg who c amt m st).1.totalShares = st.totalShares ∧
    (swap_base_to_other cfg who c amt m st).1.shares = st.shares ∧
    (swap_base_to_other cfg who c amt m st).1.events = st.events ++
      [Event.Swap who cfg.baseCurrencyId amt c
        (calculate_swap_target_amount cfg (st.pool c).2 (st.pool c).1 amt)] :=
  by
  by_cases h1 : 0 < amt ∧ st.ensure_can_withdraw cfg.baseCurrencyId who amt
  · by_cases h2 : m ≤ calculate_swap_target_amount cfg (st.pool c).2 (st.pool c).1 amt
    · refine ⟨h1, h2, ?_, ?_, ?_, ?_⟩
      · simp only [swap_base_to_other, h1.1, h1.2, and_self, not_true_eq_false,
          if_false, h2, emit_pool, transfer_pool]
        funext c2
        by_cases hc : c2 = c <;> simp [hc]
      · simp [swap_base_to_other, h1.1, h1.2, h2]
      · simp [swap_base_to_other, h1.1, h1.2, h2]
      · simp [swap_base_to_other, h1.1, h1.2, h2]
    · exfalso
      simp [swap_base_to_other, h1.1, h1.2, h2] at h
  · exfalso
    simp only [swap_base_to_other, if_pos h1] at h
    exact Option.some_ne_none _ h

/-- A committed `swap_other_to_other` between distinct currencies: its guards
held, the supply pool gained the supply and lost the intermediate base amount,
and the target pool lost the priced target amount and gained the intermediate
base amount; both priced against the pre-state. -/
theorem swap_other_to_other_spec (cfg : Config) (who s amt t m : ℕ)
    (st : DexState) (hst : t ≠ s)
    (h : (swap_other_to_other cfg who s amt t m st).2 = none) :
    (0 < amt ∧ st.ensure_can_withdraw s who amt) ∧
    m ≤ calculate_swap_target_amount cfg (st.pool t).2 (st.pool t).1
      (calculate_swap_target_amount cfg (st.pool s).1 (st.pool s).2 amt) ∧
    (swap_other_to_other cfg who s amt t m st).1.pool = (fun c2 =>
      if c2 = t then
        ((st.pool t).1 -
            calculate_swap_target_amount cfg (st.pool t).2 (st.pool t).1
              (calculate_swap_target_amount cfg (st.pool s).1 (st.pool s).2 amt),
          (st.pool t).2 +
            calculate_swap_target_amount cfg (st.pool s).1 (st.pool s).2 amt)
      else if c2 = s then
        ((st.pool s).1 + amt,
          (st.pool s).2 -
            calculate_swap_target_amount cfg (st.pool s).1 (st.pool s).2 amt)
      else st.pool c2) ∧
    (swap_other_to_other cfg who s amt t m st).1.totalShares = st.totalShares ∧
    (swap_other_to_other cfg who s amt t m st).1.shares = st.shares ∧
    (swap_other_to_other cfg who s amt t m st).1.events = st.events ++
      [Event.Swap who s amt t
        (calculate_swap_target_amount cfg (st.pool t).2 (st.pool t).1
          (calculate_swap_target_amount cfg (st.pool s).1 (st.pool s).2 amt))] :=
  by
  by_cases h1 : 0 < amt ∧ st.ensure_can_withdraw s who amt
  · by_cases h2 : m ≤ calculate_swap_target_amount cfg (st.pool t).2 (st.pool t).1
        (calculate_swap_target_amount cfg (st.pool s).1 (st.pool s).2 amt)
    · refine ⟨h1, h2, ?_, ?_, ?_, ?_⟩
      · simp only [swap_other_to_other, h1.1, h1.2, and_self, not_true_eq_false,
          if_false, h2, emit_pool, transfer_pool]
        funext c2
        by_cases hc : c2 = t
        · simp [hc, hst]
        · by_cases hc2 : c2 = s <;> simp [hc, hc2, Ne.symm hst]
      · simp [swap_other_to_other, h1.1, h1.2, h2]
      · simp [swap_other_to_other, h1.1, h1.2, h2]
      · simp [swap_other_to_other, h1.1, h1.2, h2]
    · exfalso
      simp [swap_other_to_other, h1.1, h1.2, h2] at h
  · exfalso
    simp only [swap_other_to_other, if_pos h1] at h
    exact Option.some_ne_none _ h

/-- A committed `withdraw_liquidity`: its guards held; both share maps drop by
the share amount at the touched keys, the pool loses the two proportional
withdrawal amounts, and the event carries the base amount twice. -/
theorem withdraw_liquidity_spec (cfg : Config) (who c s : ℕ) (st : DexState)
    (h : (withdraw_liquidity cfg who c s st).2 = none) :
    c ≠ cfg.baseCurrencyId ∧
    (s ≤ st.shares c who ∧ 0 < s) ∧
    (withdraw_liquidity cfg who c s st).1.pool = (fun c2 =>
      if c2 = c then
        ((st.pool c).1 - withdraw_amount s (st.totalShares c) (st.pool c).1,
          (st.pool c).2 - withdraw_amount s (st.totalShares c) (st.pool c).2)
      else st.pool c2) ∧
    (withdraw_liquidity cfg who c s st).1.totalShares = (fun c2 =>
      if c2 = c then st.totalShares c2 - s else st.totalShares c2) ∧
    (withdraw_liquidity cfg who c s st).1.shares = (fun c2 a =>
      if c2 = c ∧ a = who then st.shares c2 a - s else st.shares c2 a) ∧
    (withdraw_liquidity cfg who c s st).1.events = st.events ++
      [Event.WithdrawLiquidity who c
        (withdraw_amount s (st.totalShares c) (st.pool c).2)
        (withdraw_amount s (st.totalShares c) (st.pool c).2) s] :=
  by
  by_cases hb : c = cfg.baseCurrencyId
  · exfalso
    simp [withdraw_liquidity, hb] at h
  · by_cases h1 : s ≤ st.shares c who ∧ 0 < s
    · refine ⟨hb, h1, ?_, ?_, ?_, ?_⟩
      · simp only [withdraw_liquidity, hb, if_false, h1.1, h1.2, and_self,
          not_true_eq_false, emit_pool, ite_transfer_pool, transfer_pool]
        funext c2
        by_cases hc : c2 = c <;> simp [hc]
      · simp only [withdraw_liquidity, hb, if_false, h1.1, h1.2, and_self,
          not_true_eq_false, emit_totalShares, ite_transfer_totalShares,
          transfer_totalShares]
      · simp only [withdraw_liquidity, hb, if_false, h1.1, h1.2, and_self,
          not_true_eq_false, emit_shares, ite_transfer_shares, transfer_shares]
      · simp only [withdraw_liquidity, hb, if_false, h1.1, h1.2, and_self,
          not_true_eq_false, emit_events, ite_transfer_events, transfer_events]
    · exfalso
      simp [withdraw_liquidity, hb, h1] at h

/-- A committed `add_liquidity`: its guards held; both share maps grow by the
computed share increment at the touched keys and the pool gains the two
computed currency increments. -/
theorem add_liquidity_spec (cfg : Config) (who c mo mb : ℕ) (st : DexState)
    (h : (add_liquidity cfg who c mo mb st).2 = none) :
    c ≠ cfg.baseCurrencyId ∧ (mo ≠ 0 ∧ mb ≠ 0) ∧
    (0 < (add_liquidity_increments (st.totalShares c) (st.pool c).1
        (st.pool c).2 mo mb).2.2 ∧
      0 < (add_liquidity_increments (st.totalShares c) (st.pool c).1
        (st.pool c).2 mo mb).1 ∧
      0 < (add_liquidity_increments (st.totalShares c) (st.pool c).1
        (st.pool c).2 mo mb).2.1) ∧
    (add_liquidity cfg who c mo mb st).1.pool = (fun c2 =>
      if c2 = c then
        ((st.pool c).1 + (add_liquidity_increments (st.totalShares c)
            (st.pool c).1 (st.pool c).2 mo mb).1,
          (st.pool c).2 + (add_liquidity_increments (st.totalShares c)
            (st.pool c).1 (st.pool c).2 mo mb).2.1)
      else st.pool c2) ∧
    (add_liquidity cfg who c mo mb st).1.totalShares = (fun c2 =>
      if c2 = c then st.totalShares c2 + (add_liquidity_increments
        (st.totalShares c) (st.pool c).1 (st.pool c).2 mo mb).2.2
      else st.totalShares c2) ∧
    (add_liquidity cfg who c mo mb st).1.shares = (fun c2 a =>
      if c2 = c ∧ a = who then st.shares c2 a + (add_liquidity_increments
        (st.totalShares c) (st.pool c).1 (st.pool c).2 mo mb).2.2
      else st.shares c2 a) ∧
    (add_liquidity cfg who c mo mb st).1.events = st.events ++
      [Event.AddLiquidity who c
        (add_liquidity_increments (st.totalShares c) (st.pool c).1
          (st.pool c).2 mo mb).1
        (add_liquidity_increments (st.totalShares c) (st.pool c).1
          (st.pool c).2 mo mb).2.1
        (add_liquidity_increments (st.totalShares c) (st.pool c).1
          (st.pool c).2 mo mb).2.2] :=
  by
  by_cases hb : c = cfg.baseCurrencyId
  · exfalso
    simp [add_liquidity, hb] at h
  · by_cases hm : mo ≠ 0 ∧ mb ≠ 0
    · by_cases hpos : 0 < (add_liquidity_increments (st.totalShares c)
          (st.pool c).1 (st.pool c).2 mo mb).2.2 ∧
          0 < (add_liquidity_increments (st.totalShares c) (st.pool c).1
            (st.pool c).2 mo mb).1 ∧
          0 < (add_liquidity_increments (st.totalShares c) (st.pool c).1
            (st.pool c).2 mo mb).2.1
      · by_cases hcw : st.ensure_can_withdraw cfg.baseCurrencyId who
            (add_liquidity_increments (st.totalShares c) (st.pool c).1
              (st.pool c).2 mo mb).2.1 ∧
            st.ensure_can_withdraw c who
              (add_liquidity_increments (st.totalShares c) (st.pool c).1
                (st.pool c).2 mo mb).1
        · refine ⟨hb, hm, hpos, ?_, ?_, ?_, ?_⟩
          · simp only [add_liquidity, hb, if_false, hm.1, hm.2,
              ne_eq, not_false_eq_true, and_self, not_true_eq_false,
              hpos.1, hpos.2.1, hpos.2.2, hcw.1, hcw.2, emit_pool,
              transfer_pool]
            funext c2
            by_cases hc : c2 = c <;> simp [hc]
          · simp only [add_liquidity, hb, if_false, hm.1, hm.2,
              ne_eq, not_false_eq_true, and_self, not_true_eq_false,
              hpos.1, hpos.2.1, hpos.2.2, hcw.1, hcw.2,
              emit_totalShares, transfer_totalShares]
          · simp only [add_liquidity, hb, if_false, hm.1, hm.2,
              ne_eq, not_false_eq_true, and_self, not_true_eq_false,
              hpos.1, hpos.2.1, hpos.2.2, hcw.1, hcw.2,
              emit_shares, transfer_shares]
          · simp only [add_liquidity, hb, if_false, hm.1, hm.2,
              ne_eq, not_false_eq_true, and_self, not_true_eq_false,
              hpos.1, hpos.2.1, hpos.2.2, hcw.1, hcw.2,
              emit_events, transfer_events]
        · exfalso
          simp only [add_liquidity, hb, if_false] at h
          rw [if_neg (by simpa using hm)] at h
          rw [if_neg (not_not_intro hpos), if_pos hcw] at h
          exact Option.some_ne_none _ h
      · exfalso
        simp only [add_liquidity, hb, if_false] at h
        rw [if_neg (by simpa using hm)] at h
        rw [if_pos hpos] at h
        exact Option.some_ne_none _ h
    · exfalso
      simp only [add_liquidity, hb, if_false] at h
      rw [if_pos (by simpa using hm)] at h
      exact Option.some_ne_none _ h

/-! ## Facts about the pricing engine -/

theorem acc_le_u128Max : acc ≤ u128Max := by
  unfold acc u128Max
  norm_num

theorem acc_pos : 0 < acc := by
  unfold acc
  norm_num

theorem from_rational_zero_den (n : ℕ) :
    (FixedU128.from_rational n 0).val = u128Max := by
  unfold FixedU128.from_rational
  rw [if_pos rfl]

theorem from_rational_val_le (a b : ℕ) :
    (FixedU128.from_rational a b).val ≤ u128Max := by
  unfold FixedU128.from_rational
  split
  · exact le_refl _
  · exact min_le_right _ _

/-- The second stage of `calculate_swap_target_amount` (gross output minus
fee) never returns more than the gross output `T - r`. -/
theorem fee_stage_le (cfg : Config) (T r : ℕ) (hrT : r ≤ T) :
    (((checked_sub T r).bind fun n =>
      checked_sub n ((cfg.exchangeFee.checked_mul_int n).getD u128Max)).getD 0)
      ≤ T - r := by
  unfold checked_sub
  rw [if_pos hrT]
  rw [Option.some_bind]
  split
  · rw [Option.getD_some]
    omega
  · rw [Option.getD_none]
    omega

/-- The swap output never exceeds the target reserve. -/
theorem calculate_swap_target_amount_le (cfg : Config) (S T d : ℕ) :
    calculate_swap_target_amount cfg S T d ≤ T := by
  simp only [calculate_swap_target_amount]
  split
  · rename_i hr
    rcases h : ((checked_add S d).bind fun n =>
        (FixedU128.from_rational S n).checked_mul_int T).getD 0 with _ | r
    · rw [h] at hr
      omega
    · rcases le_or_lt (r + 1) T with hle | hlt
      · exact le_trans (fee_stage_le cfg T (r + 1) hle) (Nat.sub_le _ _)
      · unfold checked_sub
        rw [if_neg (by omega)]
        rw [Option.none_bind, Option.getD_none]
        omega
  · omega

/-- A positive swap output is strictly below the target reserve: the new
target pool is at least one unit. -/
theorem calculate_swap_target_amount_lt_of_pos (cfg : Config) (S T d : ℕ)
    (h : 0 < calculate_swap_target_amount cfg S T d) :
    calculate_swap_target_amount cfg S T d < T := by
  revert h
  simp only [calculate_swap_target_amount]
  split
  · rename_i hr
    rcases h : ((checked_add S d).bind fun n =>
        (FixedU128.from_rational S n).checked_mul_int T).getD 0 with _ | r
    · rw [h] at hr
      omega
    · rcases le_or_lt (r + 1) T with hle | hlt
      · intro hpos
        have := fee_stage_le cfg T (r + 1) hle
        omega
      · unfold checked_sub
        rw [if_neg (by omega)]
        rw [Option.none_bind, Option.getD_none]
        omega
  · omega

/-- A pool with zero target reserve prices every trade at zero. -/
theorem calculate_swap_target_amount_target_zero (cfg : Config) (S d : ℕ) :
    calculate_swap_target_amount cfg S 0 d = 0 := by
  simp only [calculate_swap_target_amount]
  split
  · rename_i hr
    exfalso
    apply hr
    rcases hca : checked_add S d with _ | n
    · simp
    · simp [FixedU128.checked_mul_int]
  · rfl

/-- Core constant-product bound: after a swap moving `d` into the supply side,
the product of the reserves may fall below its previous value only by the
fixed-point truncation slack `(S + d) · (T + 10^18) / 10^18`.  Stated
cross-multiplied by `acc = 10^18`. -/
theorem swap_product_bound (cfg : Config) (S T d : ℕ) (hT : T ≤ u128Max)
    (hSd : S + d ≤ u128Max) :
    acc * (S * T) ≤
      acc * ((S + d) * (T - calculate_swap_target_amount cfg S T d)) +
        (S + d) * (T + acc) := by
  have htriv : acc * (S * T) ≤ acc * ((S + d) * T) := by
    apply Nat.mul_le_mul_left
    exact Nat.mul_le_mul_right T (Nat.le_add_right S d)
  rcases Nat.eq_zero_or_pos (S + d) with hn0 | hn0
  · have hS : S = 0 := by omega
    subst hS
    simp
  · have hca : checked_add S d = some (S + d) := by
      unfold checked_add
      rw [if_pos hSd]
    have hqacc : S * acc / (S + d) ≤ acc := by
      calc S * acc / (S + d) ≤ (S + d) * acc / (S + d) :=
            Nat.div_le_div_right (Nat.mul_le_mul_right acc (Nat.le_add_right S d))
        _ = acc := Nat.mul_div_cancel_left acc hn0
    have hfr : FixedU128.from_rational S (S + d) = ⟨S * acc / (S + d)⟩ := by
      unfold FixedU128.from_rational
      rw [if_neg (by omega)]
      rw [min_eq_left (le_trans hqacc acc_le_u128Max)]
    have hrT : S * acc / (S + d) * T / acc ≤ T := by
      calc S * acc / (S + d) * T / acc ≤ acc * T / acc :=
            Nat.div_le_div_right (Nat.mul_le_mul_right T hqacc)
        _ = T := Nat.mul_div_cancel_left T acc_pos
    have hmul : FixedU128.checked_mul_int ⟨S * acc / (S + d)⟩ T =
        some (S * acc / (S + d) * T / acc) := by
      unfold FixedU128.checked_mul_int
      rw [if_pos (le_trans hrT hT)]
    have hntp : ((checked_add S d).bind fun n =>
        (FixedU128.from_rational S n).checked_mul_int T).getD 0 =
        S * acc / (S + d) * T / acc := by
      rw [hca, Option.some_bind, hfr, hmul, Option.getD_some]
    simp only [calculate_swap_target_amount]
    rw [hntp]
    set q := S * acc / (S + d) with hqdef
    set r := q * T / acc with hrdef
    split
    · rename_i hrne
      -- the remaining output is at most T - r, so the new reserve keeps r
      have hout := fee_stage_le cfg T r hrT
      set out := ((checked_sub T r).bind fun n =>
        checked_sub n ((cfg.exchangeFee.checked_mul_int n).getD u128Max)).getD 0
        with houtdef
      have hkeep : r ≤ T - out := by omega
      have h1 : S * acc ≤ q * (S + d) + (S + d) := by
        have hdm := Nat.div_add_mod (S * acc) (S + d)
        have hml := Nat.mod_lt (S * acc) hn0
        rw [← hqdef] at hdm
        linarith
      have h2 : q * T ≤ r * acc + acc := by
        have hdm := Nat.div_add_mod (q * T) acc
        have hml := Nat.mod_lt (q * T) acc_pos
        rw [← hrdef] at hdm
        linarith
      have hstep : acc * (S * T) ≤ acc * ((S + d) * r) + (S + d) * (T + acc) := by
        have hA := Nat.mul_le_mul_right T h1
        have hB := Nat.mul_le_mul_right (S + d) h2
        nlinarith
      calc acc * (S * T) ≤ acc * ((S + d) * r) + (S + d) * (T + acc) := hstep
        _ ≤ acc * ((S + d) * (T - out)) + (S + d) * (T + acc) := by
            have := Nat.mul_le_mul_left (S + d) hkeep
            have := Nat.mul_le_mul_left acc (Nat.mul_le_mul_left (S + d) hkeep)
            omega
    · simp only [Nat.sub_zero]
      exact le_trans htriv (Nat.le_add_right _ _)

/-! ## Concrete fixtures (mock.rs configuration: base = AUSD = 1, fee = 1/100,
balance type u128; BTC = 2, DOT = 3, ALICE = 1, BOB = 2) -/

/-- The mock runtime configuration: base currency 1, exchange fee `1/100`. -/
def cfgT : Config := ⟨1, FixedU128.from_rational 1 100⟩

/-- A state with pools BTC = DOT = (1000, 1000) and ample balances. -/
def stT : DexState :=
  { balances := fun _ _ => 10 ^ 30
    pool := fun c => if c = 2 ∨ c = 3 then (1000, 1000) else (0, 0)
    totalShares := fun c => if c = 2 ∨ c = 3 then 1000 else 0
    shares := fun c a => if (c = 2 ∨ c = 3) ∧ a = 1 then 1000 else 0
    events := [] }

/-- A state with no liquidity anywhere but ample user balances. -/
def stEmpty : DexState :=
  { balances := fun _ _ => 10 ^ 30
    pool := fun _ => (0, 0)
    totalShares := fun _ => 0
    shares := fun _ _ => 0
    events := [] }

/-- A state with a sharply skewed BTC pool `(10^19, 37)`. -/
def stC9 : DexState :=
  { balances := fun _ _ => 10 ^ 33
    pool := fun c => if c = 2 then (10 ^ 19, 37) else (0, 0)
    totalShares := fun c => if c = 2 then 10 ^ 19 else 0
    shares := fun c a => if c = 2 ∧ a = 1 then 10 ^ 19 else 0
    events := [] }

/-- A state with a large balanced BTC pool `(10^24, 10^24)`. -/
def stC7 : DexState :=
  { balances := fun _ _ => 10 ^ 37
    pool := fun c => if c = 2 then (10 ^ 24, 10 ^ 24) else (0, 0)
    totalShares := fun c => if c = 2 then 10 ^ 24 else 0
    shares := fun c a => if c = 2 ∧ a = 1 then 10 ^ 24 else 0
    events := [] }

/-! ## Claim C1 -/

/-- Claim C1 counterexample: with fee `1/100 > 0` and pool `(1000, 1000)`, the
swap of 100 units commits and the reserve product strictly DECREASES
(`1100 · 909 = 999900 < 1000000`), refuting both the non-decrease and the
strict increase asserted by the claim. -/
theorem C1_counterexample :
    0 < cfgT.exchangeFee.val ∧
    (swap_other_to_base cfgT 1 2 100 0 stT).2 = none ∧
    ((swap_other_to_base cfgT 1 2 100 0 stT).1.pool 2).1 *
        ((swap_other_to_base cfgT 1 2 100 0 stT).1.pool 2).2 <
      (stT.pool 2).1 * (stT.pool 2).2 := by
  decide

/-- Claim C1 (amended): the reserve product of a touched pool may fall below
its pre-swap value, by at most the fixed-point truncation slack
`P_new · (T_old + 10^18) / 10^18`; cross-multiplied by `acc = 10^18`, for every
committed swap of each kind (with in-range reserves). -/
theorem C1_product_bound_up_to_truncation :
    ∀ (cfg : Config) (who c amt m t : ℕ) (st : DexState),
    ((swap_other_to_base cfg who c amt m st).2 = none →
      (st.pool c).2 ≤ u128Max → (st.pool c).1 + amt ≤ u128Max →
      acc * ((st.pool c).1 * (st.pool c).2) ≤
        acc * (((swap_other_to_base cfg who c amt m st).1.pool c).1 *
          ((swap_other_to_base cfg who c amt m st).1.pool c).2) +
        ((swap_other_to_base cfg who c amt m st).1.pool c).1 *
          ((st.pool c).2 + acc)) ∧
    ((swap_base_to_other cfg who c amt m st).2 = none →
      (st.pool c).1 ≤ u128Max → (st.pool c).2 + amt ≤ u128Max →
      acc * ((st.pool c).1 * (st.pool c).2) ≤
        acc * (((swap_base_to_other cfg who c amt m st).1.pool c).1 *
          ((swap_base_to_other cfg who c amt m st).1.pool c).2) +
        ((swap_base_to_other cfg who c amt m st).1.pool c).2 *
          ((st.pool c).1 + acc)) ∧
    ((swap_other_to_other cfg who c amt t m st).2 = none → t ≠ c →
      (st.pool c).2 ≤ u128Max → (st.pool c).1 + amt ≤ u128Max →
      (st.pool t).1 ≤ u128Max →
      (st.pool t).2 + calculate_swap_target_amount cfg (st.pool c).1
        (st.pool c).2 amt ≤ u128Max →
      (acc * ((st.pool c).1 * (st.pool c).2) ≤
        acc * (((swap_other_to_other cfg who c amt t m st).1.pool c).1 *
          ((swap_other_to_other cfg who c amt t m st).1.pool c).2) +
        ((swap_other_to_other cfg who c amt t m st).1.pool c).1 *
          ((st.pool c).2 + acc)) ∧
      (acc * ((st.pool t).1 * (st.pool t).2) ≤
        acc * (((swap_other_to_other cfg who c amt t m st).1.pool t).1 *
          ((swap_other_to_other cfg who c amt t m st).1.pool t).2) +
        ((swap_other_to_other cfg who c amt t m st).1.pool t).2 *
          ((st.pool t).1 + acc))) := by
  intro cfg who c amt m t st
  refine ⟨?_, ?_, ?_⟩
  · intro h hT hS
    have hspec := swap_other_to_base_spec cfg who c amt m st h
    have hp := congrFun hspec.2.2.1 c
    rw [if_pos rfl] at hp
    rw [hp]
    exact swap_product_bound cfg (st.pool c).1 (st.pool c).2 amt hT hS
  · intro h hT hS
    have hspec := swap_base_to_other_spec cfg who c amt m st h
    have hp := congrFun hspec.2.2.1 c
    rw [if_pos rfl] at hp
    rw [hp]
    have := swap_product_bound cfg (st.pool c).2 (st.pool c).1 amt hT hS
    nlinarith [this]
  · intro h hts hT1 hS1 hT2 hS2
    have hspec := swap_other_to_other_spec cfg who c amt t m st hts h
    have hpc := congrFun hspec.2.2.1 c
    have hpt := congrFun hspec.2.2.1 t
    rw [if_neg (Ne.symm hts), if_pos rfl] at hpc
    rw [if_pos rfl] at hpt
    constructor
    · rw [hpc]
      exact swap_product_bound cfg (st.pool c).1 (st.pool c).2 amt hT1 hS1
    · rw [hpt]
      have := swap_product_bound cfg (st.pool t).2 (st.pool t).1
        (calculate_swap_target_amount cfg (st.pool c).1 (st.pool c).2 amt)
        hT2 hS2
      nlinarith [this]

/-- Claim C1 witness: the amended bound instantiated at the concrete
counterexample swap. -/
theorem C1_product_bound_witness :
    acc * ((stT.pool 2).1 * (stT.pool 2).2) ≤
      acc * (((swap_other_to_base cfgT 1 2 100 0 stT).1.pool 2).1 *
        ((swap_other_to_base cfgT 1 2 100 0 stT).1.pool 2).2) +
      ((swap_other_to_base cfgT 1 2 100 0 stT).1.pool 2).1 *
        ((stT.pool 2).2 + acc) :=
  (C1_product_bound_up_to_truncation cfgT 1 2 100 0 3 stT).1 (by decide)
    (by decide) (by decide)

/-! ## Claim C5 -/

/-- Claim C5 counterexample: from `Pool[BTC] = (1000, 1000)` with fee `1/100`,
the swap of 100 BTC with `min_target = 0` commits but does NOT pay 90 nor
leave the pool at `(1100, 910)`. -/
theorem C5_counterexample :
    (swap_other_to_base cfgT 1 2 100 0 stT).2 = none ∧
    (swap_other_to_base cfgT 1 2 100 0 stT).1.pool 2 ≠ (1100, 910) ∧
    (swap_other_to_base cfgT 1 2 100 0 stT).1.events ≠
      [Event.Swap 1 2 100 1 90] := by
  decide

/-- Claim C5 (amended): the swap pays out 91 units of base currency (the code
floors the new target pool, giving gross `1000 - 909 = 91`, and the 1% fee on
91 truncates to 0) and leaves `Pool[BTC] = (1100, 909)`. -/
theorem C5_simple_swap_pays_91 :
    (swap_other_to_base cfgT 1 2 100 0 stT).2 = none ∧
    (swap_other_to_base cfgT 1 2 100 0 stT).1.pool 2 = (1100, 909) ∧
    (swap_other_to_base cfgT 1 2 100 0 stT).1.events =
      [Event.Swap 1 2 100 1 91] ∧
    (swap_other_to_base cfgT 1 2 100 0 stT).1.balances 1 1 = 10 ^ 30 + 91 := by
  decide

/-! ## Claim C2 -/

/-- Claim C2 counterexample: against an empty pool the pricing engine returns
0, yet a swap with `min_target = 0` COMMITS (`0 ≥ 0` passes the ensure): the
supply is transferred in, the pool is written, and no `InacceptablePrice`
surfaces. -/
theorem C2_counterexample :
    priced_target_amount cfgT 2 100 1 stEmpty = 0 ∧
    (swap_currency cfgT 1 2 100 1 0 stEmpty).2 = none ∧
    (swap_currency cfgT 1 2 100 1 0 stEmpty).1.pool 2 = (100, 0) ∧
    (swap_currency cfgT 1 2 100 1 0 stEmpty).1.balances 2 1 =
      10 ^ 30 - 100 := by
  decide

/-- Claim C2 (amended): when the pricing engine returns 0 the swap aborts with
`InacceptablePrice` and leaves the state untouched only if the caller's
`min_target` is positive; with `min_target = 0` the zero-output swap commits. -/
theorem C2_zero_price_aborts_iff_min_positive :
    ∀ (cfg : Config) (who s amt t m : ℕ) (st : DexState),
    t ≠ s → 0 < amt → st.ensure_can_withdraw s who amt →
    priced_target_amount cfg s amt t st = 0 → 0 < m →
    swap_currency cfg who s amt t m st = (st, some Error.InacceptablePrice) := by
  intro cfg who s amt t m st hts hamt hcw hp hm
  unfold swap_currency
  rw [if_neg hts]
  by_cases ht : t = cfg.baseCurrencyId
  · rw [if_pos ht]
    unfold priced_target_amount at hp
    rw [if_pos ht] at hp
    simp only [swap_other_to_base]
    rw [if_neg (not_not_intro ⟨hamt, hcw⟩), hp, if_pos (by omega)]
  · rw [if_neg ht]
    unfold priced_target_amount at hp
    rw [if_neg ht] at hp
    by_cases hs : s = cfg.baseCurrencyId
    · rw [if_pos hs]
      rw [if_pos hs] at hp
      simp only [swap_base_to_other]
      rw [if_neg (not_not_intro ⟨hamt, hs ▸ hcw⟩), hp, if_pos (by omega)]
    · rw [if_neg hs]
      rw [if_neg hs] at hp
      simp only [swap_other_to_other]
      rw [if_neg (not_not_intro ⟨hamt, hcw⟩), hp, if_pos (by omega)]

/-- Claim C2 witness: the empty-pool swap with `min_target = 1` aborts with
`InacceptablePrice` and no state change. -/
theorem C2_zero_price_witness :
    swap_currency cfgT 1 2 100 1 1 stEmpty =
      (stEmpty, some Error.InacceptablePrice) :=
  C2_zero_price_aborts_iff_min_positive cfgT 1 2 100 1 1 stEmpty (by decide)
    (by decide) (by decide) (by decide) (by decide)

/-! ## Claim C3 -/

/-- Invariant I4: total shares and the two reserves of a pool are either all
zero or all strictly positive. -/
def allZeroOrAllPos (st : DexState) (c : ℕ) : Prop :=
  (st.totalShares c = 0 ∧ st.pool c = (0, 0)) ∨
  (0 < st.totalShares c ∧ 0 < (st.pool c).1 ∧ 0 < (st.pool c).2)

instance (st : DexState) (c : ℕ) : Decidable (allZeroOrAllPos st c) := by
  unfold allZeroOrAllPos
  infer_instance

/-- Claim C3 counterexample: from the empty state — which satisfies I4 — a
swap with `min_target = 0` against the empty pool commits and leaves
`Pool[2] = (100, 0)` with `TotalShares[2] = 0`: a positive reserve with zero
total shares. -/
theorem C3_counterexample :
    allZeroOrAllPos stEmpty 2 ∧
    (swap_other_to_base cfgT 1 2 100 0 stEmpty).2 = none ∧
    (swap_other_to_base cfgT 1 2 100 0 stEmpty).1.totalShares 2 = 0 ∧
    0 < ((swap_other_to_base cfgT 1 2 100 0 stEmpty).1.pool 2).1 ∧
    ¬ allZeroOrAllPos (swap_other_to_base cfgT 1 2 100 0 stEmpty).1 2 := by
  decide

/-! Helper facts about `withdraw_amount`. -/

theorem from_rational_val_le_acc (s total : ℕ) (h0 : 0 < total)
    (hs : s ≤ total) : (FixedU128.from_rational s total).val ≤ acc := by
  unfold FixedU128.from_rational
  rw [if_neg (by omega)]
  refine le_trans (min_le_left _ _) ?_
  calc s * acc / total ≤ total * acc / total :=
        Nat.div_le_div_right (Nat.mul_le_mul_right acc hs)
    _ = acc := Nat.mul_div_cancel_left acc h0

/-- The proportional withdraw amount never exceeds the reserve when the
requested shares are at most the total shares. -/
theorem withdraw_amount_le (s total p : ℕ) (h0 : 0 < total) (hs : s ≤ total)
    (hp : p ≤ u128Max) : withdraw_amount s total p ≤ p := by
  have hv := from_rational_val_le_acc s total h0 hs
  have hle : (FixedU128.from_rational s total).val * p / acc ≤ p := by
    calc (FixedU128.from_rational s total).val * p / acc ≤ acc * p / acc :=
          Nat.div_le_div_right (Nat.mul_le_mul_right p hv)
      _ = p := Nat.mul_div_cancel_left p acc_pos
  simp only [withdraw_amount, FixedU128.checked_mul_int]
  rw [if_pos (le_trans hle hp)]
  simpa using hle

/-- Withdrawing strictly fewer shares than the total leaves part of every
positive reserve behind. -/
theorem withdraw_amount_lt (s total p : ℕ) (hs : s < total) (hp0 : 0 < p)
    (hp : p ≤ u128Max) : withdraw_amount s total p < p := by
  have h0 : 0 < total := by omega
  have hv : (FixedU128.from_rational s total).val < acc := by
    unfold FixedU128.from_rational
    rw [if_neg (by omega)]
    refine lt_of_le_of_lt (min_le_left _ _) ?_
    rw [Nat.div_lt_iff_lt_mul h0, Nat.mul_comm acc total]
    exact (Nat.mul_lt_mul_right acc_pos).mpr hs
  have hlt : (FixedU128.from_rational s total).val * p / acc < p := by
    rw [Nat.div_lt_iff_lt_mul acc_pos]
    calc (FixedU128.from_rational s total).val * p < acc * p :=
          (Nat.mul_lt_mul_right hp0).mpr hv
      _ = p * acc := Nat.mul_comm acc p
  simp only [withdraw_amount, FixedU128.checked_mul_int]
  rw [if_pos (le_trans (le_of_lt hlt) hp)]
  simpa using hlt

/-- Withdrawing exactly the total shares drains the reserve completely. -/
theorem withdraw_amount_all (total p : ℕ) (h0 : 0 < total) (hp : p ≤ u128Max) :
    withdraw_amount total total p = p := by
  have hv : (FixedU128.from_rational total total).val = acc := by
    unfold FixedU128.from_rational
    rw [if_neg (by omega)]
    show min (total * acc / total) u128Max = acc
    rw [Nat.mul_div_cancel_left acc h0]
    exact min_eq_left acc_le_u128Max
  simp only [withdraw_amount, FixedU128.checked_mul_int, hv]
  rw [Nat.mul_div_cancel_left p acc_pos]
  rw [if_pos hp]
  rfl

/-- Claim C3 (amended): the all-zero-or-all-positive invariant is preserved by
every committed `add_liquidity`, by every committed `withdraw_liquidity`
(given per-account shares bounded by the total and in-range reserves), and by
every committed swap whose priced amounts are all non-zero; a swap committing
with a zero priced output (possible when `min_target = 0`) can break it. -/
theorem C3_invariant_preserved_on_nonzero_ops :
    ∀ (cfg : Config) (who c mo mb s amt m t : ℕ) (st : DexState),
    ((add_liquidity cfg who c mo mb st).2 = none →
      ∀ c2, allZeroOrAllPos st c2 →
        allZeroOrAllPos (add_liquidity cfg who c mo mb st).1 c2) ∧
    ((withdraw_liquidity cfg who c s st).2 = none →
      st.shares c who ≤ st.totalShares c →
      (st.pool c).1 ≤ u128Max → (st.pool c).2 ≤ u128Max →
      ∀ c2, allZeroOrAllPos st c2 →
        allZeroOrAllPos (withdraw_liquidity cfg who c s st).1 c2) ∧
    ((swap_other_to_base cfg who c amt m st).2 = none →
      0 < calculate_swap_target_amount cfg (st.pool c).1 (st.pool c).2 amt →
      ∀ c2, allZeroOrAllPos st c2 →
        allZeroOrAllPos (swap_other_to_base cfg who c amt m st).1 c2) ∧
    ((swap_base_to_other cfg who c amt m st).2 = none →
      0 < calculate_swap_target_amount cfg (st.pool c).2 (st.pool c).1 amt →
      ∀ c2, allZeroOrAllPos st c2 →
        allZeroOrAllPos (swap_base_to_other cfg who c amt m st).1 c2) ∧
    ((swap_other_to_other cfg who c amt t m st).2 = none → t ≠ c →
      0 < calculate_swap_target_amount cfg (st.pool c).1 (st.pool c).2 amt →
      0 < calculate_swap_target_amount cfg (st.pool t).2 (st.pool t).1
        (calculate_swap_target_amount cfg (st.pool c).1 (st.pool c).2 amt) →
      ∀ c2, allZeroOrAllPos st c2 →
        allZeroOrAllPos (swap_other_to_other cfg who c amt t m st).1 c2) := by
  intro cfg who c mo mb s amt m t st
  refine ⟨?_, ?_, ?_, ?_, ?_⟩
  · -- add_liquidity
    intro h c2 hpre
    have hspec := add_liquidity_spec cfg who c mo mb st h
    have hp := congrFun hspec.2.2.2.1 c2
    have ht := congrFun hspec.2.2.2.2.1 c2
    unfold allZeroOrAllPos at hpre ⊢
    rw [hp, ht]
    by_cases hc : c2 = c
    · rw [if_pos hc, if_pos hc]
      obtain ⟨hsh, ho, hb⟩ := hspec.2.2.1
      subst hc
      right
      refine ⟨by omega, by simpa using by omega, by simpa using by omega⟩
    · rw [if_neg hc, if_neg hc]
      exact hpre
  · -- withdraw_liquidity
    intro h hst hP1 hP2 c2 hpre
    have hspec := withdraw_liquidity_spec cfg who c s st h
    obtain ⟨hs1, hs2⟩ := hspec.2.1
    have hp := congrFun hspec.2.2.1 c2
    have ht := congrFun hspec.2.2.2.1 c2
    unfold allZeroOrAllPos at hpre ⊢
    rw [hp, ht]
    by_cases hc : c2 = c
    · rw [if_pos hc, if_pos hc]
      subst hc
      have hstot : s ≤ st.totalShares c2 := le_trans hs1 hst
      rcases hpre with ⟨hz, hpz⟩ | ⟨htpos, hp1, hp2⟩
      · omega
      · rcases Nat.lt_or_ge s (st.totalShares c2) with hlt | hge
        · right
          have hw1 := withdraw_amount_lt s (st.totalShares c2) (st.pool c2).1
            hlt hp1 hP1
          have hw2 := withdraw_amount_lt s (st.totalShares c2) (st.pool c2).2
            hlt hp2 hP2
          refine ⟨by omega, by simpa using by omega, by simpa using by omega⟩
        · have hseq : s = st.totalShares c2 := by omega
          left
          rw [hseq]
          have hw1 := withdraw_amount_all (st.totalShares c2) (st.pool c2).1
            (by omega) hP1
          have hw2 := withdraw_amount_all (st.totalShares c2) (st.pool c2).2
            (by omega) hP2
          refine ⟨by omega, ?_⟩
          rw [Prod.ext_iff]
          constructor <;> simp [hw1, hw2]
    · rw [if_neg hc, if_neg hc]
      exact hpre
  · -- swap_other_to_base
    intro h hpos c2 hpre
    have hspec := swap_other_to_base_spec cfg who c amt m st h
    have hp := congrFun hspec.2.2.1 c2
    have ht := congrFun hspec.2.2.2.1 c2
    unfold allZeroOrAllPos at hpre ⊢
    rw [hp, ht]
    by_cases hc : c2 = c
    · rw [if_pos hc]
      subst hc
      rcases hpre with ⟨hz, hpz⟩ | ⟨htpos, hp1, hp2⟩
      · exfalso
        rw [hpz] at hpos
        simp only [calculate_swap_target_amount_target_zero] at hpos
        omega
      · right
        have hlt := calculate_swap_target_amount_lt_of_pos cfg (st.pool c2).1
          (st.pool c2).2 amt hpos
        refine ⟨htpos, by simpa using by omega, by simpa using by omega⟩
    · rw [if_neg hc]
      exact hpre
  · -- swap_base_to_other
    intro h hpos c2 hpre
    have hspec := swap_base_to_other_spec cfg who c amt m st h
    have hp := congrFun hspec.2.2.1 c2
    have ht := congrFun hspec.2.2.2.1 c2
    unfold allZeroOrAllPos at hpre ⊢
    rw [hp, ht]
    by_cases hc : c2 = c
    · rw [if_pos hc]
      subst hc
      rcases hpre with ⟨hz, hpz⟩ | ⟨htpos, hp1, hp2⟩
      · exfalso
        rw [hpz] at hpos
        simp only [calculate_swap_target_amount_target_zero] at hpos
        omega
      · right
        have hlt := calculate_swap_target_amount_lt_of_pos cfg (st.pool c2).2
          (st.pool c2).1 amt hpos
        refine ⟨htpos, by simpa using by omega, by simpa using by omega⟩
    · rw [if_neg hc]
      exact hpre
  · -- swap_other_to_other
    intro h hts hmid hout c2 hpre
    have hspec := swap_other_to_other_spec cfg who c amt t m st hts h
    have hp := congrFun hspec.2.2.1 c2
    have ht := congrFun hspec.2.2.2.1 c2
    unfold allZeroOrAllPos at hpre ⊢
    rw [hp, ht]
    by_cases hct : c2 = t
    · rw [if_pos hct]
      subst hct
      rcases hpre with ⟨hz, hpz⟩ | ⟨htpos, hp1, hp2⟩
      · exfalso
        rw [hpz] at hout
        simp only [calculate_swap_target_amount_target_zero] at hout
        omega
      · right
        have hlt := calculate_swap_target_amount_lt_of_pos cfg (st.pool c2).2
          (st.pool c2).1
          (calculate_swap_target_amount cfg (st.pool c).1 (st.pool c).2 amt)
          hout
        refine ⟨htpos, by simpa using by omega, by simpa using by omega⟩
    · rw [if_neg hct]
      by_cases hcc : c2 = c
      · rw [if_pos hcc]
        subst hcc
        rcases hpre with ⟨hz, hpz⟩ | ⟨htpos, hp1, hp2⟩
        · exfalso
          rw [hpz] at hmid
          simp only [calculate_swap_target_amount_target_zero] at hmid
          omega
        · right
          have hlt := calculate_swap_target_amount_lt_of_pos cfg (st.pool c2).1
            (st.pool c2).2 amt hmid
          refine ⟨htpos, by simpa using by omega, by simpa using by omega⟩
      · rw [if_neg hcc]
        exact hpre

/-- Claim C3 witness: the amended preservation applied to the concrete swap
from the well-formed state `stT`. -/
theorem C3_invariant_witness :
    allZeroOrAllPos (swap_other_to_base cfgT 1 2 100 0 stT).1 2 :=
  (C3_invariant_preserved_on_nonzero_ops cfgT 1 2 100 100 400 100 0 3
    stT).2.2.1 (by decide) (by decide) 2 (by decide)

/-! ## Claim C4 -/

/-- Every run of `add_liquidity` either commits or returns the untouched
state. -/
theorem add_liquidity_cases (cfg : Config) (who c mo mb : ℕ) (st : DexState) :
    (add_liquidity cfg who c mo mb st).2 = none ∨
    (add_liquidity cfg who c mo mb st).1 = st := by
  by_cases hb : c = cfg.baseCurrencyId
  · right
    simp [add_liquidity, hb]
  · by_cases hm : mo ≠ 0 ∧ mb ≠ 0
    · by_cases hpos : 0 < (add_liquidity_increments (st.totalShares c)
          (st.pool c).1 (st.pool c).2 mo mb).2.2 ∧
          0 < (add_liquidity_increments (st.totalShares c) (st.pool c).1
            (st.pool c).2 mo mb).1 ∧
          0 < (add_liquidity_increments (st.totalShares c) (st.pool c).1
            (st.pool c).2 mo mb).2.1
      · by_cases hcw : st.ensure_can_withdraw cfg.baseCurrencyId who
            (add_liquidity_increments (st.totalShares c) (st.pool c).1
              (st.pool c).2 mo mb).2.1 ∧
            st.ensure_can_withdraw c who
              (add_liquidity_increments (st.totalShares c) (st.pool c).1
                (st.pool c).2 mo mb).1
        · left
          simp only [add_liquidity, hb, if_false]
          rw [if_neg (by simpa using hm)]
          rw [if_neg (not_not_intro hpos), if_neg (not_not_intro hcw)]
        · right
          simp only [add_liquidity, hb, if_false]
          rw [if_neg (by simpa using hm)]
          rw [if_neg (not_not_intro hpos), if_pos hcw]
      · right
        simp only [add_liquidity, hb, if_false]
        rw [if_neg (by simpa using hm)]
        rw [if_pos hpos]
    · right
      simp only [add_liquidity, hb, if_false]
      rw [if_pos (by simpa using hm)]

/-- Every run of `withdraw_liquidity` either commits or returns the untouched
state. -/
theorem withdraw_liquidity_cases (cfg : Config) (who c s : ℕ)
    (st : DexState) :
    (withdraw_liquidity cfg who c s st).2 = none ∨
    (withdraw_liquidity cfg who c s st).1 = st := by
  by_cases hb : c = cfg.baseCurrencyId
  · right
    simp [withdraw_liquidity, hb]
  · by_cases h1 : s ≤ st.shares c who ∧ 0 < s
    · left
      simp [withdraw_liquidity, hb, h1.1, h1.2]
    · right
      simp only [withdraw_liquidity, hb, if_false]
      rw [if_pos h1]

/-- Every run of `swap_other_to_base` either commits or returns the untouched
state. -/
theorem swap_other_to_base_cases (cfg : Config) (who c amt m : ℕ)
    (st : DexState) :
    (swap_other_to_base cfg who c amt m st).2 = none ∨
    (swap_other_to_base cfg who c amt m st).1 = st := by
  by_cases h1 : 0 < amt ∧ st.ensure_can_withdraw c who amt
  · by_cases h2 : m ≤ calculate_swap_target_amount cfg (st.pool c).1
        (st.pool c).2 amt
    · left
      simp [swap_other_to_base, h1.1, h1.2, h2]
    · right
      simp only [swap_other_to_base]
      rw [if_neg (not_not_intro h1), if_pos h2]
  · right
    simp only [swap_other_to_base]
    rw [if_pos h1]

/-- Every run of `swap_base_to_other` either commits or returns the untouched
state. -/
theorem swap_base_to_other_cases (cfg : Config) (who c amt m : ℕ)
    (st : DexState) :
    (swap_base_to_other cfg who c amt m st).2 = none ∨
    (swap_base_to_other cfg who c amt m st).1 = st := by
  by_cases h1 : 0 < amt ∧ st.ensure_can_withdraw cfg.baseCurrencyId who amt
  · by_cases h2 : m ≤ calculate_swap_target_amount cfg (st.pool c).2
        (st.pool c).1 amt
    · left
      simp [swap_base_to_other, h1.1, h1.2, h2]
    · right
      simp only [swap_base_to_other]
      rw [if_neg (not_not_intro h1), if_pos h2]
  · right
    simp only [swap_base_to_other]
    rw [if_pos h1]

/-- Every run of `swap_other_to_other` either commits or returns the untouched
state. -/
theorem swap_other_to_other_cases (cfg : Config) (who s amt t m : ℕ)
    (st : DexState) :
    (swap_other_to_other cfg who s amt t m st).2 = none ∨
    (swap_other_to_other cfg who s amt t m st).1 = st := by
  by_cases h1 : 0 < amt ∧ st.ensure_can_withdraw s who amt
  · by_cases h2 : m ≤ calculate_swap_target_amount cfg (st.pool t).2
        (st.pool t).1
        (calculate_swap_target_amount cfg (st.pool s).1 (st.pool s).2 amt)
    · left
      simp [swap_other_to_other, h1.1, h1.2, h2]
    · right
      simp only [swap_other_to_other]
      rw [if_neg (not_not_intro h1), if_pos h2]
  · right
    simp only [swap_other_to_other]
    rw [if_pos h1]

/-- Every run of `swap_currency` either commits or returns the untouched
state. -/
theorem swap_currency_cases (cfg : Config) (who sc sa tc tm : ℕ)
    (st : DexState) :
    (swap_currency cfg who sc sa tc tm st).2 = none ∨
    (swap_currency cfg who sc sa tc tm st).1 = st := by
  unfold swap_currency
  by_cases hcs : tc = sc
  · right
    rw [if_pos hcs]
  · rw [if_neg hcs]
    by_cases ht : tc = cfg.baseCurrencyId
    · rw [if_pos ht]
      exact swap_other_to_base_cases cfg who sc sa tm st
    · rw [if_neg ht]
      by_cases hs : sc = cfg.baseCurrencyId
      · rw [if_pos hs]
        exact swap_base_to_other_cases cfg who tc sa tm st
      · rw [if_neg hs]
        exact swap_other_to_other_cases cfg who sc sa tc tm st

/-- Claim C4: every operation that returns an error leaves the module state —
pools, total shares, per-account shares, ledger balances and events —
completely unchanged. -/
theorem C4_error_leaves_state_unchanged :
    ∀ (cfg : Config) (who c mo mb wc ws sc sa tc tm oc oa om : ℕ)
      (st : DexState),
    ((add_liquidity cfg who c mo mb st).2 ≠ none →
      (add_liquidity cfg who c mo mb st).1 = st) ∧
    ((withdraw_liquidity cfg who wc ws st).2 ≠ none →
      (withdraw_liquidity cfg who wc ws st).1 = st) ∧
    ((swap_other_to_base cfg who sc sa tm st).2 ≠ none →
      (swap_other_to_base cfg who sc sa tm st).1 = st) ∧
    ((swap_base_to_other cfg who tc sa tm st).2 ≠ none →
      (swap_base_to_other cfg who tc sa tm st).1 = st) ∧
    ((swap_other_to_other cfg who oc oa tc om st).2 ≠ none →
      (swap_other_to_other cfg who oc oa tc om st).1 = st) ∧
    ((swap_currency cfg who sc sa tc tm st).2 ≠ none →
      (swap_currency cfg who sc sa tc tm st).1 = st) := by
  intro cfg who c mo mb wc ws sc sa tc tm oc oa om st
  refine ⟨?_, ?_, ?_, ?_, ?_, ?_⟩ <;> intro hne
  · exact (add_liquidity_cases cfg who c mo mb st).resolve_left hne
  · exact (withdraw_liquidity_cases cfg who wc ws st).resolve_left hne
  · exact (swap_other_to_base_cases cfg who sc sa tm st).resolve_left hne
  · exact (swap_base_to_other_cases cfg who tc sa tm st).resolve_left hne
  · exact (swap_other_to_other_cases cfg who oc oa tc om st).resolve_left hne
  · exact (swap_currency_cases cfg who sc sa tc tm st).resolve_left hne

/-- Claim C4 witness: concrete failing operations (base currency as "other",
excessive share withdrawal, self swap) all return the input state. -/
theorem C4_error_witness :
    (add_liquidity cfgT 1 1 100 100 stT).1 = stT ∧
    (withdraw_liquidity cfgT 1 2 5000 stT).1 = stT ∧
    (swap_currency cfgT 1 2 100 2 0 stT).1 = stT := by
  refine ⟨?_, ?_, ?_⟩
  · exact (C4_error_leaves_state_unchanged cfgT 1 1 100 100 2 5000 2 100 2 0
      2 100 0 stT).1 (by decide)
  · exact (C4_error_leaves_state_unchanged cfgT 1 1 100 100 2 5000 2 100 2 0
      2 100 0 stT).2.1 (by decide)
  · exact (C4_error_leaves_state_unchanged cfgT 1 1 100 100 2 100 2 100 2 0
      2 100 0 stT).2.2.2.2.2 (by decide)

/-! ## Claim C8 -/

/-- Claim C8: every committed `withdraw_liquidity` emits a `WithdrawLiquidity`
event whose two balance fields BOTH carry the withdrawn base-currency amount
(the other-currency amount does not appear), together with the account, the
currency id and the share amount. -/
theorem C8_withdraw_event_carries_base_twice :
    ∀ (cfg : Config) (who c s : ℕ) (st : DexState),
    (withdraw_liquidity cfg who c s st).2 = none →
    (withdraw_liquidity cfg who c s st).1.events = st.events ++
      [Event.WithdrawLiquidity who c
        (withdraw_amount s (st.totalShares c) (st.pool c).2)
        (withdraw_amount s (st.totalShares c) (st.pool c).2) s] := by
  intro cfg who c s st h
  exact (withdraw_liquidity_spec cfg who c s st h).2.2.2.2.2

/-- Claim C8 witness: the concrete withdrawal of 400 shares from `stT`. -/
theorem C8_withdraw_event_witness :
    (withdraw_liquidity cfgT 1 2 400 stT).1.events = stT.events ++
      [Event.WithdrawLiquidity 1 2
        (withdraw_amount 400 (stT.totalShares 2) (stT.pool 2).2)
        (withdraw_amount 400 (stT.totalShares 2) (stT.pool 2).2) 400] :=
  C8_withdraw_event_carries_base_twice cfgT 1 2 400 stT (by decide)

/-! ## Claim C10 -/

/-- Claim C10: the unchecked reserve subtractions in the commit phases never
underflow — the proportional withdraw amount is at most the reserve whenever
the shares are within the total, and every non-zero priced swap output is
strictly below the target-side reserve. -/
theorem C10_reserve_subtractions_never_underflow :
    ∀ (cfg : Config) (s total p S T d : ℕ),
    (0 < s → s ≤ total → p ≤ u128Max → withdraw_amount s total p ≤ p) ∧
    (0 < calculate_swap_target_amount cfg S T d →
      calculate_swap_target_amount cfg S T d < T) := by
  intro cfg s total p S T d
  constructor
  · intro h1 h2 h3
    exact withdraw_amount_le s total p (by omega) h2 h3
  · intro h
    exact calculate_swap_target_amount_lt_of_pos cfg S T d h

/-- Claim C10 witness: the bounds instantiated at a concrete withdrawal and a
concrete swap. -/
theorem C10_reserve_subtractions_witness :
    withdraw_amount 400 1000 1000 ≤ 1000 ∧
    calculate_swap_target_amount cfgT 1000 1000 100 < 1000 := by
  constructor
  · exact (C10_reserve_subtractions_never_underflow cfgT 400 1000 1000 1000
      1000 100).1 (by decide) (by decide) (by decide)
  · exact (C10_reserve_subtractions_never_underflow cfgT 400 1000 1000 1000
      1000 100).2 (by decide)

/-! ## Claim C9 -/

/-- Claim C9 counterexample: from `Pool[2] = (10^19, 37)` the proposal
`(max_other, max_base) = (260000000000000000, 1)` takes the base-binding
branch and commits, transferring `270270270270270270 > max_other` units of
the other currency — the transferred amount EXCEEDS the caller's proposed
maximum. -/
theorem C9_counterexample :
    0 < stC9.totalShares 2 ∧
    (add_liquidity cfgT 1 2 260000000000000000 1 stC9).2 = none ∧
    (add_liquidity cfgT 1 2 260000000000000000 1 stC9).1.events =
      [Event.AddLiquidity 1 2 270270270270270270 1 270270270270270270] ∧
    (add_liquidity cfgT 1 2 260000000000000000 1 stC9).1.balances 2 1 =
      10 ^ 33 - 270270270270270270 ∧
    260000000000000000 < 270270270270270270 := by
  decide

/-- Claim C9 (amended): against a pool with existing shares, the branch taken
consumes its own side's proposed maximum exactly, and the base-currency amount
never exceeds `max_base` in either branch; but in the base-binding branch the
other-currency amount is recomputed from the pool ratio and may exceed
`max_other` (fixed-point truncation makes the branch test coarser than the
exact ratio comparison). -/
theorem C9_proposed_maxima :
    ∀ (total Po Pb Mo Mb : ℕ), total ≠ 0 → 0 < Mo → Mb ≤ u128Max →
    (((FixedU128.from_rational Mb Mo).val ≤
        (FixedU128.from_rational Pb Po).val →
      (add_liquidity_increments total Po Pb Mo Mb).2.1 = Mb) ∧
     (¬ ((FixedU128.from_rational Mb Mo).val ≤
        (FixedU128.from_rational Pb Po).val) →
      (add_liquidity_increments total Po Pb Mo Mb).1 = Mo ∧
      (add_liquidity_increments total Po Pb Mo Mb).2.1 ≤ Mb)) := by
  intro total Po Pb Mo Mb htot hMo hMb
  constructor
  · intro hcond
    simp only [add_liquidity_increments]
    rw [if_neg htot, if_pos hcond]
  · intro hcond
    simp only [add_liquidity_increments]
    rw [if_neg htot, if_neg hcond]
    refine ⟨rfl, ?_⟩
    have hlt : (FixedU128.from_rational Pb Po).val <
        (FixedU128.from_rational Mb Mo).val := Nat.lt_of_not_le hcond
    have hiv_le : (FixedU128.from_rational Mb Mo).val ≤ u128Max :=
      from_rational_val_le Mb Mo
    have hPo : Po ≠ 0 := by
      intro h0
      rw [h0, from_rational_zero_den] at hlt
      omega
    have hrv : (FixedU128.from_rational Pb Po).val = Pb * acc / Po := by
      have hmin : min (Pb * acc / Po) u128Max < u128Max := by
        have hx := lt_of_lt_of_le hlt hiv_le
        unfold FixedU128.from_rational at hx
        rw [if_neg hPo] at hx
        exact hx
      unfold FixedU128.from_rational
      rw [if_neg hPo]
      rcases le_or_lt (Pb * acc / Po) u128Max with hle | hgt
      · exact congrArg FixedU128.val (congrArg FixedU128.mk
          (min_eq_left hle)) ▸ rfl
      · exfalso
        rw [min_eq_right (le_of_lt hgt)] at hmin
        omega
    have hiv2 : (FixedU128.from_rational Mb Mo).val ≤ Mb * acc / Mo := by
      unfold FixedU128.from_rational
      rw [if_neg (by omega)]
      exact min_le_left _ _
    have hkey : (Pb * acc / Po + 1) * Mo ≤ Mb * acc := by
      have h1 : Pb * acc / Po + 1 ≤ Mb * acc / Mo := by
        rw [hrv] at hlt
        omega
      exact (Nat.le_div_iff_mul_le hMo).1 h1
    have hmul : Pb * acc / Po * Mo < Mb * acc := by
      have hexp : (Pb * acc / Po + 1) * Mo = Pb * acc / Po * Mo + Mo := by
        ring
      omega
    have hbase : Pb * acc / Po * Mo / acc < Mb := by
      rw [Nat.div_lt_iff_lt_mul acc_pos]
      calc Pb * acc / Po * Mo < Mb * acc := hmul
        _ = Mb * acc := rfl
    simp only [FixedU128.checked_mul_int, hrv]
    rw [if_pos (le_trans (le_of_lt hbase) hMb)]
    simpa using le_of_lt hbase

/-- Claim C9 witness: a balanced proposal takes the base-binding branch and
consumes exactly `max_base`; a base-heavy proposal takes the other branch and
consumes exactly `max_other` with base within the maximum. -/
theorem C9_proposed_maxima_witness :
    (add_liquidity_increments 100 100 100 50 50).2.1 = 50 ∧
    (add_liquidity_increments 100 100 100 50 80).1 = 50 ∧
    (add_liquidity_increments 100 100 100 50 80).2.1 ≤ 80 := by
  refine ⟨?_, ?_, ?_⟩
  · exact (C9_proposed_maxima 100 100 100 50 50 (by decide) (by decide)
      (by decide)).1 (by decide)
  · exact ((C9_proposed_maxima 100 100 100 50 80 (by decide) (by decide)
      (by decide)).2 (by decide)).1
  · exact ((C9_proposed_maxima 100 100 100 50 80 (by decide) (by decide)
      (by decide)).2 (by decide)).2

/-! ## Claim C6 -/

/-- Genesis state of the module: arbitrary ledger endowments, no pools, no
shares, no events. -/
def initState (bal : ℕ → ℕ → ℕ) : DexState :=
  { balances := bal
    pool := fun _ => (0, 0)
    totalShares := fun _ => 0
    shares := fun _ _ => 0
    events := [] }

/-- One committed operation of the module. -/
inductive Step (cfg : Config) : DexState → DexState → Prop where
  | add : ∀ (who c mo mb : ℕ) (st st2 : DexState),
      add_liquidity cfg who c mo mb st = (st2, none) → Step cfg st st2
  | withdraw : ∀ (who c s : ℕ) (st st2 : DexState),
      withdraw_liquidity cfg who c s st = (st2, none) → Step cfg st st2
  | swap : ∀ (who sc sa tc tm : ℕ) (st st2 : DexState),
      swap_currency cfg who sc sa tc tm st = (st2, none) → Step cfg st st2

/-- States reachable from genesis through committed operations. -/
def Reachable (cfg : Config) (bal : ℕ → ℕ → ℕ) (st : DexState) : Prop :=
  Relation.ReflTransGen (Step cfg) (initState bal) st

/-- Invariant I2: for every currency the total shares equal the sum of the
per-account shares (over some finite support). -/
def shareConservation (st : DexState) : Prop :=
  ∀ c, ∃ A : Finset ℕ, (∀ a, a ∉ A → st.shares c a = 0) ∧
    st.totalShares c = ∑ a ∈ A, st.shares c a

/-- A committed `swap_currency` touches neither share map. -/
theorem swap_currency_preserves_shares (cfg : Config) (who sc sa tc tm : ℕ)
    (st : DexState) (h : (swap_currency cfg who sc sa tc tm st).2 = none) :
    (swap_currency cfg who sc sa tc tm st).1.totalShares = st.totalShares ∧
    (swap_currency cfg who sc sa tc tm st).1.shares = st.shares := by
  unfold swap_currency at h ⊢
  by_cases hcs : tc = sc
  · rw [if_pos hcs] at h
    exact absurd h (by simp)
  · rw [if_neg hcs] at h ⊢
    by_cases ht : tc = cfg.baseCurrencyId
    · rw [if_pos ht] at h ⊢
      have hspec := swap_other_to_base_spec cfg who sc sa tm st h
      exact ⟨hspec.2.2.2.1, hspec.2.2.2.2.1⟩
    · rw [if_neg ht] at h ⊢
      by_cases hs : sc = cfg.baseCurrencyId
      · rw [if_pos hs] at h ⊢
        have hspec := swap_base_to_other_spec cfg who tc sa tm st h
        exact ⟨hspec.2.2.2.1, hspec.2.2.2.2.1⟩
      · rw [if_neg hs] at h ⊢
        have hspec := swap_other_to_other_spec cfg who sc sa tc tm st hcs h
        exact ⟨hspec.2.2.2.1, hspec.2.2.2.2.1⟩

/-- Share conservation is preserved by every committed operation. -/
theorem shareConservation_step (cfg : Config) (st st2 : DexState)
    (hstep : Step cfg st st2) (hinv : shareConservation st) :
    shareConservation st2 := by
  cases hstep with
  | add who c mo mb st st2 h =>
    have h2 : (add_liquidity cfg who c mo mb st).2 = none := by rw [h]
    have h1 : (add_liquidity cfg who c mo mb st).1 = st2 := by rw [h]
    have hspec := add_liquidity_spec cfg who c mo mb st h2
    have hts := h1 ▸ hspec.2.2.2.2.1
    have hsh := h1 ▸ hspec.2.2.2.2.2.1
    intro c2
    obtain ⟨A, hsupp, hsum⟩ := hinv c2
    by_cases hc : c2 = c
    · subst hc
      refine ⟨insert who A, ?_, ?_⟩
      · intro a ha
        simp only [Finset.mem_insert, not_or] at ha
        rw [congrFun (congrFun hsh c2) a, if_neg (by simp [ha.1])]
        exact hsupp a ha.2
      · rw [congrFun hts c2, if_pos rfl]
        have hrw : ∀ a ∈ insert who A, st2.shares c2 a =
            st.shares c2 a + (if a = who then (add_liquidity_increments
              (st.totalShares c2) (st.pool c2).1 (st.pool c2).2 mo mb).2.2
              else 0) := by
          intro a _
          rw [congrFun (congrFun hsh c2) a]
          by_cases hw : a = who <;> simp [hw]
        rw [Finset.sum_congr rfl hrw, Finset.sum_add_distrib]
        rw [Finset.sum_ite_eq' (insert who A) who]
        rw [if_pos (Finset.mem_insert_self who A)]
        by_cases hwA : who ∈ A
        · rw [Finset.insert_eq_self.mpr hwA, hsum]
        · rw [Finset.sum_insert hwA, hsupp who hwA, hsum]
          omega
    · refine ⟨A, ?_, ?_⟩
      · intro a ha
        rw [congrFun (congrFun hsh c2) a, if_neg (by simp [hc])]
        exact hsupp a ha
      · rw [congrFun hts c2, if_neg hc, hsum]
        refine Finset.sum_congr rfl ?_
        intro a _
        rw [congrFun (congrFun hsh c2) a, if_neg (by simp [hc])]
  | withdraw who c s st st2 h =>
    have h2 : (withdraw_liquidity cfg who c s st).2 = none := by rw [h]
    have h1 : (withdraw_liquidity cfg who c s st).1 = st2 := by rw [h]
    have hspec := withdraw_liquidity_spec cfg who c s st h2
    have hts := h1 ▸ hspec.2.2.2.1
    have hsh := h1 ▸ hspec.2.2.2.2.1
    obtain ⟨hsw, hspos⟩ := hspec.2.1
    intro c2
    obtain ⟨A, hsupp, hsum⟩ := hinv c2
    by_cases hc : c2 = c
    · subst hc
      have hwhoA : who ∈ A := by
        by_contra hn
        have := hsupp who hn
        omega
      refine ⟨A, ?_, ?_⟩
      · intro a ha
        rw [congrFun (congrFun hsh c2) a,
          if_neg (by rintro ⟨-, rfl⟩; exact ha hwhoA)]
        exact hsupp a ha
      · rw [congrFun hts c2, if_pos rfl]
        rw [← Finset.add_sum_erase A (st2.shares c2) hwhoA]
        have herase : ∀ a ∈ A.erase who, st2.shares c2 a = st.shares c2 a := by
          intro a ha
          rw [congrFun (congrFun hsh c2) a,
            if_neg (by rintro ⟨-, rfl⟩; exact (Finset.mem_erase.1 ha).1 rfl)]
        rw [Finset.sum_congr rfl herase]
        rw [congrFun (congrFun hsh c2) who, if_pos ⟨rfl, rfl⟩]
        have hsum2 : st.totalShares c2 = st.shares c2 who +
            ∑ a ∈ A.erase who, st.shares c2 a := by
          rw [hsum]
          exact (Finset.add_sum_erase A (st.shares c2) hwhoA).symm
        have hCC : (∑ a ∈ A.erase who, st.shares c2 a) =
            (A.erase who).sum (st.shares c2) := rfl
        rw [hsum2, hCC]
        omega
    · refine ⟨A, ?_, ?_⟩
      · intro a ha
        rw [congrFun (congrFun hsh c2) a, if_neg (by simp [hc])]
        exact hsupp a ha
      · rw [congrFun hts c2, if_neg hc, hsum]
        refine Finset.sum_congr rfl ?_
        intro a _
        rw [congrFun (congrFun hsh c2) a, if_neg (by simp [hc])]
  | swap who sc sa tc tm st st2 h =>
    have h2 : (swap_currency cfg who sc sa tc tm st).2 = none := by rw [h]
    have h1 : (swap_currency cfg who sc sa tc tm st).1 = st2 := by rw [h]
    have hpre := swap_currency_preserves_shares cfg who sc sa tc tm st h2
    have hts := h1 ▸ hpre.1
    have hsh := h1 ▸ hpre.2
    intro c2
    obtain ⟨A, hsupp, hsum⟩ := hinv c2
    refine ⟨A, ?_, ?_⟩
    · intro a ha
      rw [congrFun (congrFun hsh c2) a]
      exact hsupp a ha
    · rw [congrFun hts c2, hsum]
      refine Finset.sum_congr rfl ?_
      intro a _
      rw [congrFun (congrFun hsh c2) a]

/-- Claim C6: in every reachable state — i.e. after every sequence of
committed operations — `TotalShares[c]` equals the sum of `Shares[c, account]`
over all accounts, for every currency. -/
theorem C6_share_conservation :
    ∀ (cfg : Config) (bal : ℕ → ℕ → ℕ) (st : DexState),
    Reachable cfg bal st → shareConservation st := by
  intro cfg bal st h
  induction h with
  | refl =>
    intro c
    exact ⟨∅, fun a _ => rfl, by simp [initState]⟩
  | tail hsteps hstep ih =>
    exact shareConservation_step cfg _ _ hstep ih

/-- Claim C6 witness: share conservation holds at genesis. -/
theorem C6_share_conservation_witness :
    shareConservation (initState fun _ _ => 10 ^ 30) :=
  C6_share_conservation cfgT (fun _ _ => 10 ^ 30) _ Relation.ReflTransGen.refl

/-! ## Claim C7 -/

theorem acc_sq_le_u128Max : acc * acc ≤ u128Max := by
  unfold acc u128Max
  norm_num

theorem two_acc_le_u128Max : 2 * acc ≤ u128Max := by
  unfold acc u128Max
  norm_num

/-- Claim C7 counterexample: from `Pool[2] = (10^24, 10^24)` with fee `1/100`
the quote for target `x = 10^7` returns the positive supply `10^7`, yet
swapping exactly that supply against the unchanged pool pays only
`9900000 < x - 1 = 9999999`.  Every division along this trace has a positive
denominator and every intermediate stays far below the 128-bit bound: the
quote's floor divisions under-estimate the required supply by about
`reserve / 10^18` units, and the shortfall grows with the reserves. -/
theorem C7_counterexample :
    get_supply_amount cfgT 2 1 (10 ^ 7) stC7 = 10 ^ 7 ∧
    0 < get_supply_amount cfgT 2 1 (10 ^ 7) stC7 ∧
    (swap_other_to_base cfgT 1 2 (get_supply_amount cfgT 2 1 (10 ^ 7) stC7) 0
      stC7).2 = none ∧
    (swap_other_to_base cfgT 1 2 (get_supply_amount cfgT 2 1 (10 ^ 7) stC7) 0
      stC7).1.events = [Event.Swap 1 2 10000000 1 9900000] ∧
    calculate_swap_target_amount cfgT (stC7.pool 2).1 (stC7.pool 2).2
      (get_supply_amount cfgT 2 1 (10 ^ 7) stC7) + 1 < 10 ^ 7 := by
  decide

theorem five_le_acc : 5 ≤ acc := by
  unfold acc
  norm_num

/-- Arithmetic core, part 1: the swap of the quoted supply lands in the
non-zero branch — the new target pool `T2` is at least one unit.  All
quantities are abstract, characterized by their floor-division bounds. -/
theorem quote_new_pool_pos (T S d E f q T2 : ℕ)
    (hd2 : 2 ≤ d) (hTA : T ≤ acc) (hT4 : 4 ≤ T)
    (hE1 : d * E ≤ S * acc)
    (hf1 : acc * f ≤ E * T)
    (hq2 : S * acc < f * q + f)
    (hfpos : 0 < f)
    (hT2a : acc * T2 ≤ q * T) (hT2b : q * T < acc * T2 + acc) :
    1 ≤ T2 := by
  have hdf : acc * (d * f) ≤ acc * (S * T) := by
    have h1 : d * (acc * f) ≤ d * (E * T) := Nat.mul_le_mul_left d hf1
    have h2 : d * E * T ≤ S * acc * T := Nat.mul_le_mul_right T hE1
    linarith only [h1, h2]
  have hqT : acc ≤ q * T := by
    by_contra hn
    push_neg at hn
    have h1 : S * acc * T < (f * q + f) * T :=
      (Nat.mul_lt_mul_right (show 0 < T by omega)).mpr hq2
    have h3 : f * (q * T) < f * acc := (Nat.mul_lt_mul_left hfpos).mpr hn
    have h4 : T * f ≤ acc * f := Nat.mul_le_mul_right f hTA
    have h5 : 2 * (acc * f) ≤ d * (acc * f) := Nat.mul_le_mul_right _ hd2
    linarith only [hdf, h1, h3, h4, h5]
  rcases Nat.eq_zero_or_pos T2 with h0 | h1
  · rw [h0] at hT2b
    omega
  · exact h1

/-- Arithmetic core, part 2: swapping the quoted supply falls short of the
requested target by at most 6 units, under balanced-pool hypotheses.  `ψ` is
`acc - φ` presented additively (`φ + ψ = acc`). -/
theorem quote_swap_shortfall (φ ψ x T S N2 c d E f q T2 : ℕ)
    (hψ : φ + ψ = acc)
    (hx : 1 ≤ x) (hxT : 2 * x + 2 ≤ T) (hTS : T ≤ S) (hSA : S ≤ acc)
    (hN2a : ψ * N2 ≤ acc * acc) (hN2b : acc * acc < ψ * N2 + ψ)
    (hca : acc * c ≤ N2 * x) (hcb : N2 * x < acc * c + acc)
    (hd : d = T - c) (hcT : c ≤ T) (hd2 : 2 ≤ d)
    (hEa : d * E ≤ S * acc) (hEb : S * acc < d * E + d)
    (hfa : acc * f ≤ E * T) (hfb : E * T < acc * f + acc)
    (hqa : f * q ≤ S * acc) (hqb : S * acc < f * q + f)
    (hSf : S + 1 ≤ f)
    (hT2a : acc * T2 ≤ q * T) (hT2b : q * T < acc * T2 + acc)
    (hT2T : T2 ≤ T) :
    x ≤ (T - T2) - φ * (T - T2) / acc + 6 := by
  have hA : 0 < acc := acc_pos
  have hTA : T ≤ acc := le_trans hTS hSA
  have hT4 : 4 ≤ T := by omega
  have hφA : φ ≤ acc := by omega
  have hψ1 : 1 ≤ ψ := by
    rcases Nat.eq_zero_or_pos ψ with h0 | h1
    · exfalso
      rw [h0] at hN2b
      omega
    · exact h1
  have hfpos : 0 < f := by omega
  -- g = the gross output, fd = the fee cut
  obtain ⟨g, hg⟩ : ∃ g, g = T - T2 := ⟨_, rfl⟩
  have hgT : T2 + g = T := by omega
  obtain ⟨fd, hfd⟩ : ∃ v, v = φ * g / acc := ⟨_, rfl⟩
  have hfd_dm := Nat.div_add_mod (φ * g) acc
  have hfd_mo := Nat.mod_lt (φ * g) hA
  rw [← hfd] at hfd_dm
  have hfda : acc * fd ≤ φ * g := by omega
  have hfdle : fd ≤ g := by
    rw [hfd]
    calc φ * g / acc ≤ acc * g / acc :=
          Nat.div_le_div_right (Nat.mul_le_mul_right g hφA)
      _ = g := Nat.mul_div_cancel_left g hA
  rw [← hg, ← hfd]
  -- d * f ≤ S * T
  have hdf : d * f ≤ S * T := by
    have h1 : d * (acc * f) ≤ d * (E * T) := Nat.mul_le_mul_left d hfa
    have h2 : d * E * T ≤ S * acc * T := Nat.mul_le_mul_right T hEa
    have h3 : acc * (d * f) ≤ acc * (S * T) := by linarith only [h1, h2]
    exact Nat.le_of_mul_le_mul_left h3 hA
  -- S*acc*T ≤ acc*(d*f) + d*T + d*acc
  have hiv : S * acc * T ≤ acc * (d * f) + d * T + d * acc := by
    have h1 : (S * acc + 1) * T ≤ (d * E + d) * T :=
      Nat.mul_le_mul_right T (by omega)
    have h2 : d * (E * T + 1) ≤ d * (acc * f + acc) :=
      Nat.mul_le_mul_left d (by omega)
    linarith only [h1, h2]
  -- f * T2 ≤ S * T
  have hiii : f * T2 ≤ S * T := by
    have h1 : f * (acc * T2) ≤ f * (q * T) := Nat.mul_le_mul_left f hT2a
    have h2 : f * q * T ≤ S * acc * T := Nat.mul_le_mul_right T hqa
    have h3 : acc * (f * T2) ≤ acc * (S * T) := by linarith only [h1, h2]
    exact Nat.le_of_mul_le_mul_left h3 hA
  -- T2 ≤ d + 4
  have hdT : d ≤ T := by omega
  have hT2d4 : T2 ≤ d + 4 := by
    by_contra hn
    push_neg at hn
    have h1 : acc * d * (f * T2) ≤ acc * d * (S * T) :=
      Nat.mul_le_mul_left _ hiii
    have h2 : T2 * (S * acc * T) ≤
        T2 * (acc * (d * f) + d * T + d * acc) := Nat.mul_le_mul_left _ hiv
    have h3 : T2 * (S * acc * T) ≤
        acc * d * (S * T) + T2 * (d * T) + T2 * (d * acc) := by
      linarith only [h1, h2]
    have h4 : (d + 5) * (S * acc * T) ≤ T2 * (S * acc * T) :=
      Nat.mul_le_mul_right _ (by omega)
    have h5 : T2 * (d * T) ≤ T * (d * T) := Nat.mul_le_mul_right _ hT2T
    have h6 : T2 * (d * acc) ≤ T * (d * acc) := Nat.mul_le_mul_right _ hT2T
    have h7 : T * (d * T) ≤ T * (T * T) :=
      Nat.mul_le_mul_left _ (Nat.mul_le_mul_right _ hdT)
    have h8 : T * (d * acc) ≤ T * (T * acc) :=
      Nat.mul_le_mul_left _ (Nat.mul_le_mul_right _ hdT)
    have h9 : T * (T * T) ≤ T * (T * acc) :=
      Nat.mul_le_mul_left _ (Nat.mul_le_mul_left _ hTA)
    have h10 : T * (acc * T) ≤ S * (acc * T) := Nat.mul_le_mul_right _ hTS
    have h11 : 1 * (1 * acc) ≤ T * (T * acc) :=
      Nat.mul_le_mul (by omega) (Nat.mul_le_mul (by omega) (le_refl acc))
    linarith only [h3, h4, h5, h6, h7, h8, h9, h10, h11, hA]
  -- x * (acc - 1) < ψ * (c + 1)
  have hxe : x * acc = x * (acc - 1) + x := by
    calc x * acc = x * ((acc - 1) + 1) := by
          rw [Nat.sub_add_cancel (by omega : 1 ≤ acc)]
      _ = x * (acc - 1) + x := by ring
  have hxA : x ≤ acc := by omega
  have hi : x * (acc - 1) < ψ * (c + 1) := by
    have m1 : x * (acc * acc + 1) ≤ x * (ψ * N2 + ψ) :=
      Nat.mul_le_mul_left x (by omega)
    have m2 : ψ * (N2 * x + 1) ≤ ψ * (acc * (c + 1)) := by
      have hstep : N2 * x + 1 ≤ acc * (c + 1) := by
        have hring : acc * (c + 1) = acc * c + acc := by ring
        omega
      exact Nat.mul_le_mul_left _ hstep
    have m3 : ψ * x ≤ acc * x := Nat.mul_le_mul_right x (by omega)
    have m4 : acc * (x * acc) + 1 ≤ acc * (ψ * (c + 1) + x) := by
      linarith only [m1, m2, m3, hψ1, hx]
    have m5 : x * acc < ψ * (c + 1) + x := by
      have := Nat.lt_of_mul_lt_mul_left (show acc * (x * acc) <
        acc * (ψ * (c + 1) + x) by omega)
      exact this
    omega
  rcases le_or_lt 4 c with hc4 | hc4
  · -- main case
    have hgross : c - 4 ≤ g := by omega
    have hout : ψ * g ≤ acc * (g - fd) := by
      have hsplit : acc * (g - fd) + acc * fd = acc * g := by
        rw [← Nat.mul_add, Nat.sub_add_cancel hfdle]
      have hexp : ψ * g + φ * g = acc * g := by
        have hh : (φ + ψ) * g = acc * g := by rw [hψ]
        linarith only [hh]
      omega
    have hψg : ψ * (c - 4) ≤ acc * (g - fd) :=
      le_trans (Nat.mul_le_mul_left _ hgross) hout
    have hsplit2 : ψ * (c + 1) = ψ * (c - 4) + ψ * 5 := by
      rw [← Nat.mul_add]
      congr 1
      omega
    have hψ5 : ψ * 5 ≤ 5 * acc := by
      have hψacc : ψ ≤ acc := by omega
      linarith only [hψacc]
    have hxacc : x * acc < acc * (g - fd) + 5 * acc + x := by omega
    have hfin : acc * x < acc * ((g - fd) + 6) := by
      have hexp2 : acc * ((g - fd) + 6) = acc * (g - fd) + 6 * acc := by ring
      have hcomm : acc * x = x * acc := Nat.mul_comm acc x
      omega
    have := Nat.lt_of_mul_lt_mul_left hfin
    omega
  · -- small case: c ≤ 3 forces x ≤ 4
    have hψc : ψ * (c + 1) ≤ acc * 4 := by
      have h1 : ψ * (c + 1) ≤ acc * (c + 1) :=
        Nat.mul_le_mul_right _ (by omega)
      have h2 : acc * (c + 1) ≤ acc * 4 := Nat.mul_le_mul_left _ (by omega)
      omega
    have hx4 : x ≤ 4 := by
      by_contra hn
      push_neg at hn
      have h5 : 5 * (acc - 1) ≤ x * (acc - 1) :=
        Nat.mul_le_mul_right _ (by omega)
      have h6 := five_le_acc
      omega
    omega

/-- Claim C7 (amended): when the quote is positive, the fee is at most 50%,
the target is modest (`2x + 2 ≤ T`), and the pool is balanced toward the
supply side with reserves at most `10^18`, swapping the quoted supply pays at
least `x - 6`; the claimed `x - 1` bound, and any bound independent of pool
size, fail in general. -/
theorem C7_quote_then_swap_shortfall_bounded :
    ∀ (cfg : Config) (S T x : ℕ),
    2 * cfg.exchangeFee.val ≤ acc →
    1 ≤ x → 2 * x + 2 ≤ T → T ≤ S → S ≤ acc →
    1 ≤ calculate_swap_supply_amount cfg S T x →
    x ≤ calculate_swap_target_amount cfg S T
      (calculate_swap_supply_amount cfg S T x) + 6 := by
  intro cfg S T x hφ2 hx hxT hTS hSA hs
  have hA : 0 < acc := acc_pos
  have hAM : acc ≤ u128Max := acc_le_u128Max
  have hφA : cfg.exchangeFee.val ≤ acc := by omega
  have hφlt : cfg.exchangeFee.val < acc := by omega
  have hT4 : 4 ≤ T := by omega
  have hTA : T ≤ acc := le_trans hTS hSA
  have hA1 : FixedU128.from_natural 1 = ⟨acc⟩ := by
    unfold FixedU128.from_natural
    rw [one_mul, min_eq_left acc_le_u128Max]
  have hsub1 : (FixedU128.from_natural 1).checked_sub cfg.exchangeFee =
      some ⟨acc - cfg.exchangeFee.val⟩ := by
    rw [hA1]
    show (if cfg.exchangeFee.val ≤ acc
      then some (⟨acc - cfg.exchangeFee.val⟩ : FixedU128) else none) =
      some ⟨acc - cfg.exchangeFee.val⟩
    rw [if_pos hφA]
  have hψpos : 0 < acc - cfg.exchangeFee.val := by omega
  have hN2_2A : acc * acc / (acc - cfg.exchangeFee.val) ≤ 2 * acc := by
    have h1 : acc ≤ 2 * (acc - cfg.exchangeFee.val) := by omega
    have h2 : acc * acc ≤ 2 * acc * (acc - cfg.exchangeFee.val) := by
      calc acc * acc ≤ acc * (2 * (acc - cfg.exchangeFee.val)) :=
            Nat.mul_le_mul_left acc h1
        _ = 2 * acc * (acc - cfg.exchangeFee.val) := by ring
    calc acc * acc / (acc - cfg.exchangeFee.val) ≤
          2 * acc * (acc - cfg.exchangeFee.val) /
            (acc - cfg.exchangeFee.val) := Nat.div_le_div_right h2
      _ = 2 * acc := Nat.mul_div_cancel _ hψpos
  have hN2M : acc * acc / (acc - cfg.exchangeFee.val) ≤ u128Max :=
    le_trans hN2_2A two_acc_le_u128Max
  have hdiv1 : (FixedU128.from_natural 1).checked_div
      ⟨acc - cfg.exchangeFee.val⟩ =
      some ⟨acc * acc / (acc - cfg.exchangeFee.val)⟩ := by
    rw [hA1]
    show (if acc - cfg.exchangeFee.val = 0 then none
      else if acc * acc / (acc - cfg.exchangeFee.val) ≤ u128Max
        then some (⟨acc * acc / (acc - cfg.exchangeFee.val)⟩ : FixedU128)
        else none) = _
    rw [if_neg (by omega), if_pos hN2M]
  have hc2x : acc * acc / (acc - cfg.exchangeFee.val) * x / acc ≤ 2 * x := by
    have h1 : acc * acc / (acc - cfg.exchangeFee.val) * x ≤ acc * (2 * x) := by
      calc acc * acc / (acc - cfg.exchangeFee.val) * x ≤ 2 * acc * x :=
            Nat.mul_le_mul_right x hN2_2A
        _ = acc * (2 * x) := by ring
    calc acc * acc / (acc - cfg.exchangeFee.val) * x / acc ≤
          acc * (2 * x) / acc := Nat.div_le_div_right h1
      _ = 2 * x := Nat.mul_div_cancel_left _ hA
  have hcM : acc * acc / (acc - cfg.exchangeFee.val) * x / acc ≤ u128Max :=
    le_trans (le_trans hc2x (by omega)) hAM
  have hmulx : FixedU128.checked_mul_int
      ⟨acc * acc / (acc - cfg.exchangeFee.val)⟩ x =
      some (acc * acc / (acc - cfg.exchangeFee.val) * x / acc) := by
    show (if acc * acc / (acc - cfg.exchangeFee.val) * x / acc ≤ u128Max
      then some (acc * acc / (acc - cfg.exchangeFee.val) * x / acc)
      else none) = _
    rw [if_pos hcM]
  have hcT : acc * acc / (acc - cfg.exchangeFee.val) * x / acc ≤ T := by omega
  have hsubTc : checked_sub T
      (acc * acc / (acc - cfg.exchangeFee.val) * x / acc) =
      some (T - acc * acc / (acc - cfg.exchangeFee.val) * x / acc) := by
    unfold checked_sub
    rw [if_pos hcT]
  have hd2 : 2 ≤ T - acc * acc / (acc - cfg.exchangeFee.val) * x / acc := by
    omega
  have hdpos : 0 < T - acc * acc / (acc - cfg.exchangeFee.val) * x / acc := by
    omega
  have hE1 : S * acc / (T - acc * acc / (acc - cfg.exchangeFee.val) * x / acc)
      ≤ S * acc := Nat.div_le_self _ _
  have hSaccM : S * acc ≤ acc * acc := Nat.mul_le_mul_right acc hSA
  have hEM : S * acc / (T - acc * acc / (acc - cfg.exchangeFee.val) * x / acc)
      ≤ u128Max := le_trans hE1 (le_trans hSaccM acc_sq_le_u128Max)
  have hfr : FixedU128.from_rational S
      (T - acc * acc / (acc - cfg.exchangeFee.val) * x / acc) =
      ⟨S * acc / (T - acc * acc / (acc - cfg.exchangeFee.val) * x / acc)⟩ := by
    unfold FixedU128.from_rational
    rw [if_neg (by omega)]
    rw [min_eq_left hEM]
  have hfST : S * acc /
      (T - acc * acc / (acc - cfg.exchangeFee.val) * x / acc) * T / acc ≤
      S * T := by
    have h1 : S * acc /
        (T - acc * acc / (acc - cfg.exchangeFee.val) * x / acc) * T ≤
        acc * (S * T) := by
      calc S * acc /
            (T - acc * acc / (acc - cfg.exchangeFee.val) * x / acc) * T ≤
            S * acc * T := Nat.mul_le_mul_right T hE1
        _ = acc * (S * T) := by ring
    calc S * acc /
          (T - acc * acc / (acc - cfg.exchangeFee.val) * x / acc) * T / acc ≤
          acc * (S * T) / acc := Nat.div_le_div_right h1
      _ = S * T := Nat.mul_div_cancel_left _ hA
  have hSTM : S * T ≤ u128Max :=
    le_trans (Nat.mul_le_mul hSA hTA) acc_sq_le_u128Max
  have hfM : S * acc /
      (T - acc * acc / (acc - cfg.exchangeFee.val) * x / acc) * T / acc ≤
      u128Max := le_trans hfST hSTM
  have hmulT : FixedU128.checked_mul_int
      ⟨S * acc / (T - acc * acc / (acc - cfg.exchangeFee.val) * x / acc)⟩ T =
      some (S * acc /
        (T - acc * acc / (acc - cfg.exchangeFee.val) * x / acc) * T / acc) := by
    show (if S * acc /
        (T - acc * acc / (acc - cfg.exchangeFee.val) * x / acc) * T / acc ≤
        u128Max
      then some (S * acc /
        (T - acc * acc / (acc - cfg.exchangeFee.val) * x / acc) * T / acc)
      else none) = _
    rw [if_pos hfM]
  have hquote : calculate_swap_supply_amount cfg S T x =
      (checked_sub (S * acc /
        (T - acc * acc / (acc - cfg.exchangeFee.val) * x / acc) * T / acc)
        S).getD 0 := by
    unfold calculate_swap_supply_amount
    rw [hsub1, Option.some_bind, hdiv1, Option.some_bind, hmulx,
      Option.some_bind, hsubTc, Option.some_bind, hfr, hmulT, Option.some_bind]
  have hSf : S ≤ S * acc /
      (T - acc * acc / (acc - cfg.exchangeFee.val) * x / acc) * T / acc := by
    by_contra hn
    rw [hquote] at hs
    unfold checked_sub at hs
    rw [if_neg (by omega)] at hs
    simp at hs
  have hqv : calculate_swap_supply_amount cfg S T x =
      S * acc / (T - acc * acc / (acc - cfg.exchangeFee.val) * x / acc) * T /
        acc - S := by
    rw [hquote]
    unfold checked_sub
    rw [if_pos hSf]
    rfl
  have hfSpos : 1 ≤ S * acc /
      (T - acc * acc / (acc - cfg.exchangeFee.val) * x / acc) * T / acc - S := by
    rw [← hqv]
    exact hs
  have hfpos : 0 < S * acc /
      (T - acc * acc / (acc - cfg.exchangeFee.val) * x / acc) * T / acc := by
    omega
  have hplus : S + (S * acc /
      (T - acc * acc / (acc - cfg.exchangeFee.val) * x / acc) * T / acc - S) =
      S * acc / (T - acc * acc / (acc - cfg.exchangeFee.val) * x / acc) * T /
        acc := by omega
  have hca2 : checked_add S (S * acc /
      (T - acc * acc / (acc - cfg.exchangeFee.val) * x / acc) * T / acc - S) =
      some (S * acc /
        (T - acc * acc / (acc - cfg.exchangeFee.val) * x / acc) * T / acc) := by
    unfold checked_add
    rw [hplus, if_pos hfM]
  have hq1 : S * acc / (S * acc /
      (T - acc * acc / (acc - cfg.exchangeFee.val) * x / acc) * T / acc) ≤
      acc := by
    calc S * acc / (S * acc /
          (T - acc * acc / (acc - cfg.exchangeFee.val) * x / acc) * T / acc) ≤
          S * acc /
            (T - acc * acc / (acc - cfg.exchangeFee.val) * x / acc) * T / acc *
            acc / (S * acc /
            (T - acc * acc / (acc - cfg.exchangeFee.val) * x / acc) * T /
            acc) :=
          Nat.div_le_div_right (Nat.mul_le_mul_right acc hSf)
      _ = acc := Nat.mul_div_cancel_left acc hfpos
  have hfrq : FixedU128.from_rational S
      (S * acc / (T - acc * acc / (acc - cfg.exchangeFee.val) * x / acc) * T /
        acc) =
      ⟨S * acc / (S * acc /
        (T - acc * acc / (acc - cfg.exchangeFee.val) * x / acc) * T / acc)⟩ := by
    unfold FixedU128.from_rational
    rw [if_neg (by omega)]
    rw [min_eq_left (le_trans hq1 hAM)]
  have hT2le : S * acc / (S * acc /
      (T - acc * acc / (acc - cfg.exchangeFee.val) * x / acc) * T / acc) * T /
      acc ≤ T := by
    calc S * acc / (S * acc /
          (T - acc * acc / (acc - cfg.exchangeFee.val) * x / acc) * T / acc) *
          T / acc ≤ acc * T / acc :=
          Nat.div_le_div_right (Nat.mul_le_mul_right T hq1)
      _ = T := Nat.mul_div_cancel_left T hA
  have hmulq : FixedU128.checked_mul_int
      ⟨S * acc / (S * acc /
        (T - acc * acc / (acc - cfg.exchangeFee.val) * x / acc) * T / acc)⟩ T =
      some (S * acc / (S * acc /
        (T - acc * acc / (acc - cfg.exchangeFee.val) * x / acc) * T / acc) * T /
        acc) := by
    show (if S * acc / (S * acc /
        (T - acc * acc / (acc - cfg.exchangeFee.val) * x / acc) * T / acc) * T /
        acc ≤ u128Max
      then some (S * acc / (S * acc /
        (T - acc * acc / (acc - cfg.exchangeFee.val) * x / acc) * T / acc) * T /
        acc)
      else none) = _
    rw [if_pos (le_trans hT2le (le_trans hTA hAM))]
  -- characterizations for the arithmetic lemmas
  have hE_dm := Nat.div_add_mod (S * acc)
    (T - acc * acc / (acc - cfg.exchangeFee.val) * x / acc)
  have hE_mo := Nat.mod_lt (S * acc) hdpos
  have hf_dm := Nat.div_add_mod
    (S * acc / (T - acc * acc / (acc - cfg.exchangeFee.val) * x / acc) * T) acc
  have hf_mo := Nat.mod_lt
    (S * acc / (T - acc * acc / (acc - cfg.exchangeFee.val) * x / acc) * T) hA
  have hq_dm := Nat.div_add_mod (S * acc)
    (S * acc / (T - acc * acc / (acc - cfg.exchangeFee.val) * x / acc) * T /
      acc)
  have hq_mo := Nat.mod_lt (S * acc) hfpos
  have hT2_dm := Nat.div_add_mod
    (S * acc / (S * acc /
      (T - acc * acc / (acc - cfg.exchangeFee.val) * x / acc) * T / acc) * T)
    acc
  have hT2_mo := Nat.mod_lt
    (S * acc / (S * acc /
      (T - acc * acc / (acc - cfg.exchangeFee.val) * x / acc) * T / acc) * T)
    hA
  have hc_dm := Nat.div_add_mod
    (acc * acc / (acc - cfg.exchangeFee.val) * x) acc
  have hc_mo := Nat.mod_lt (acc * acc / (acc - cfg.exchangeFee.val) * x) hA
  have hN2_dm := Nat.div_add_mod (acc * acc) (acc - cfg.exchangeFee.val)
  have hN2_mo := Nat.mod_lt (acc * acc) hψpos
  -- the new target pool is positive
  have hT2pos : 1 ≤ S * acc / (S * acc /
      (T - acc * acc / (acc - cfg.exchangeFee.val) * x / acc) * T / acc) * T /
      acc := by
    apply quote_new_pool_pos T S
      (T - acc * acc / (acc - cfg.exchangeFee.val) * x / acc)
      (S * acc / (T - acc * acc / (acc - cfg.exchangeFee.val) * x / acc))
      (S * acc / (T - acc * acc / (acc - cfg.exchangeFee.val) * x / acc) * T /
        acc)
      (S * acc / (S * acc /
        (T - acc * acc / (acc - cfg.exchangeFee.val) * x / acc) * T / acc))
      _ hd2 hTA hT4 (by omega) (by omega) (by omega) hfpos (by omega) (by omega)
  -- the swap's output
  have hfdle : cfg.exchangeFee.val * (T - S * acc / (S * acc /
      (T - acc * acc / (acc - cfg.exchangeFee.val) * x / acc) * T / acc) * T /
      acc) / acc ≤ T - S * acc / (S * acc /
      (T - acc * acc / (acc - cfg.exchangeFee.val) * x / acc) * T / acc) * T /
      acc := by
    calc cfg.exchangeFee.val * (T - S * acc / (S * acc /
          (T - acc * acc / (acc - cfg.exchangeFee.val) * x / acc) * T / acc) *
          T / acc) / acc ≤ acc * (T - S * acc / (S * acc /
          (T - acc * acc / (acc - cfg.exchangeFee.val) * x / acc) * T / acc) *
          T / acc) / acc :=
          Nat.div_le_div_right (Nat.mul_le_mul_right _ hφA)
      _ = _ := Nat.mul_div_cancel_left _ hA
  have htarget : calculate_swap_target_amount cfg S T
      (S * acc / (T - acc * acc / (acc - cfg.exchangeFee.val) * x / acc) * T /
        acc - S) =
      (T - S * acc / (S * acc /
        (T - acc * acc / (acc - cfg.exchangeFee.val) * x / acc) * T / acc) * T /
        acc) -
      cfg.exchangeFee.val * (T - S * acc / (S * acc /
        (T - acc * acc / (acc - cfg.exchangeFee.val) * x / acc) * T / acc) * T /
        acc) / acc := by
    simp only [calculate_swap_target_amount]
    rw [hca2, Option.some_bind, hfrq, hmulq, Option.getD_some]
    rw [if_pos (show S * acc / (S * acc /
      (T - acc * acc / (acc - cfg.exchangeFee.val) * x / acc) * T / acc) * T /
      acc ≠ 0 by omega)]
    rw [show checked_sub T (S * acc / (S * acc /
        (T - acc * acc / (acc - cfg.exchangeFee.val) * x / acc) * T / acc) * T /
        acc) =
      some (T - S * acc / (S * acc /
        (T - acc * acc / (acc - cfg.exchangeFee.val) * x / acc) * T / acc) * T /
        acc) from by
      unfold checked_sub
      rw [if_pos hT2le]]
    rw [Option.some_bind]
    rw [show FixedU128.checked_mul_int cfg.exchangeFee (T - S * acc /
        (S * acc / (T - acc * acc / (acc - cfg.exchangeFee.val) * x / acc) * T /
          acc) * T / acc) =
      some (cfg.exchangeFee.val * (T - S * acc / (S * acc /
        (T - acc * acc / (acc - cfg.exchangeFee.val) * x / acc) * T / acc) * T /
        acc) / acc) from by
      show (if cfg.exchangeFee.val * (T - S * acc / (S * acc /
        (T - acc * acc / (acc - cfg.exchangeFee.val) * x / acc) * T / acc) * T /
        acc) / acc ≤ u128Max
        then some (cfg.exchangeFee.val * (T - S * acc / (S * acc /
          (T - acc * acc / (acc - cfg.exchangeFee.val) * x / acc) * T / acc) *
          T / acc) / acc)
        else none) = _
      rw [if_pos (le_trans hfdle (le_trans (Nat.sub_le _ _)
        (le_trans hTA hAM)))]]
    rw [Option.getD_some]
    rw [show checked_sub (T - S * acc / (S * acc /
        (T - acc * acc / (acc - cfg.exchangeFee.val) * x / acc) * T / acc) * T /
        acc)
        (cfg.exchangeFee.val * (T - S * acc / (S * acc /
          (T - acc * acc / (acc - cfg.exchangeFee.val) * x / acc) * T / acc) *
          T / acc) / acc) =
      some ((T - S * acc / (S * acc /
        (T - acc * acc / (acc - cfg.exchangeFee.val) * x / acc) * T / acc) * T /
        acc) -
        cfg.exchangeFee.val * (T - S * acc / (S * acc /
          (T - acc * acc / (acc - cfg.exchangeFee.val) * x / acc) * T / acc) *
          T / acc) / acc) from by
      unfold checked_sub
      rw [if_pos hfdle]]
    rw [Option.getD_some]
  rw [hqv, htarget]
  exact quote_swap_shortfall cfg.exchangeFee.val (acc - cfg.exchangeFee.val)
    x T S
    (acc * acc / (acc - cfg.exchangeFee.val))
    (acc * acc / (acc - cfg.exchangeFee.val) * x / acc)
    (T - acc * acc / (acc - cfg.exchangeFee.val) * x / acc)
    (S * acc / (T - acc * acc / (acc - cfg.exchangeFee.val) * x / acc))
    (S * acc / (T - acc * acc / (acc - cfg.exchangeFee.val) * x / acc) * T /
      acc)
    (S * acc / (S * acc /
      (T - acc * acc / (acc - cfg.exchangeFee.val) * x / acc) * T / acc))
    (S * acc / (S * acc /
      (T - acc * acc / (acc - cfg.exchangeFee.val) * x / acc) * T / acc) * T /
      acc)
    (by omega) hx hxT hTS hSA (by omega) (by omega) (by omega) (by omega)
    rfl hcT hd2 (by omega) (by omega) (by omega) (by omega) (by omega)
    (by omega) (by omega) (by omega) (by omega) hT2le


/-- Claim C7 witness: the amended bound instantiated at the balanced pool
`(1000, 1000)` with fee `1/100` and target `x = 100`: the quote is 112 and
swapping it back pays at least 94. -/
theorem C7_quote_then_swap_witness :
    100 ≤ calculate_swap_target_amount cfgT 1000 1000
      (calculate_swap_supply_amount cfgT 1000 1000 100) + 6 :=
  C7_quote_then_swap_shortfall_bounded cfgT 1000 1000 100 (by decide)
    (by decide) (by decide) (by decide) (by decide) (by decide)

end Dex
